import Mathlib

/-! newgohttp: request handlers and the lifecycle controller.

A shallow embedding of `main.go`: the three request handlers, `StartServer`,
`GracefulShutdown` and `main`, together with the parts of the Go standard
library whose behaviour the handlers observe (`http.ResponseWriter`,
`http.Error`, `encoding/json` decoding into `PostRequestBody`, `log`,
`time.Duration` arithmetic).

Conventions.
* A Go `string` or `[]byte` is a list of bytes (`GoString`); `str` gives the
  bytes of a literal.
* A Go `error` is a value of `GoError`; `Option GoError` is an `error` that may
  be `nil`.  Sentinel errors are constructors, so `==` on errors is equality.
* Go `int` and `time.Duration` are 64 bit signed integers: an `Int` together
  with `wrap64` wherever the program does arithmetic.
* Everything the program does to its surroundings (log lines, sleeping,
  channel operations, calls into the server) is recorded as a list of events,
  in program order.
-/

namespace NewGoHttp

/-! ## Strings and errors -/

/-- Go `string` and `[]byte`: a sequence of bytes. -/
abbrev GoString := List UInt8

/-- The bytes of a string literal (Go source is UTF-8). -/
def str (s : String) : GoString := s.toUTF8.data.toList

/-- The byte of an ASCII character literal. -/
def ch (c : Char) : UInt8 := c.toNat.toUInt8

/-- Go `error` values that the program can tell apart, and all the others. -/
inductive GoError where
  /-- The sentinel `http.ErrServerClosed`. -/
  | ErrServerClosed
  /-- The sentinel `context.DeadlineExceeded`. -/
  | DeadlineExceeded
  /-- The sentinel `context.Canceled`. -/
  | Canceled
  /-- Any other error value, with the text its `Error()` method returns. -/
  | other (msg : GoString)
deriving DecidableEq, Repr

/-- The method `Error()`, which the verb `%v` prints. -/
def GoError.Error : GoError → GoString
  | .ErrServerClosed => str "http: Server closed"
  | .DeadlineExceeded => str "context deadline exceeded"
  | .Canceled => str "context canceled"
  | .other msg => msg

/-! ## 64 bit arithmetic -/

/-- Two's complement wrap-around of a mathematical integer into `int64`. -/
def wrap64 (x : Int) : Int := (x + 2 ^ 63) % 2 ^ 64 - 2 ^ 63

/-- The constant `time.Second`, in nanoseconds. -/
def Second : Int := 1000000000

/-- The expression `time.Duration(n) * time.Second`: an `int64` product. -/
def secondsToDuration (n : Int) : Int := wrap64 (wrap64 n * Second)

/-- The verb `%d` applied to an `int`. -/
def fmtInt (n : Int) : GoString := str (toString n)

/-! ## `http.ResponseWriter` -/

/-- The constant `http.StatusOK`. -/
def StatusOK : Nat := 200

/-- The constant `http.StatusBadRequest`. -/
def StatusBadRequest : Nat := 400

/-- What a handler has done to its `http.ResponseWriter`.

`header` is the map returned by `Header()`.  `status` is `none` until the
status line has been written; `sent` is the header map as it stood at that
moment (later changes to `header` do not reach the client); `body` is
everything passed to `Write`. -/
structure ResponseWriter where
  header : List (GoString × GoString)
  status : Option Nat
  sent : List (GoString × GoString)
  body : GoString
deriving DecidableEq, Repr

/-- The writer a handler receives. -/
def ResponseWriter.fresh : ResponseWriter := ⟨[], none, [], []⟩

/-- The call `w.Header().Set(key, value)`. -/
def ResponseWriter.SetHeader (w : ResponseWriter) (key value : GoString) : ResponseWriter :=
  { w with header := (key, value) :: w.header.filter (fun kv => kv.1 ≠ key) }

/-- The call `w.WriteHeader(code)`; only the first call has an effect. -/
def ResponseWriter.WriteHeader (w : ResponseWriter) (code : Nat) : ResponseWriter :=
  match w.status with
  | some _ => w
  | none => { w with status := some code, sent := w.header }

/-- The call `w.Write(data)`: writes the status line with `200 OK` first if no
status has been written yet. -/
def ResponseWriter.Write (w : ResponseWriter) (data : GoString) : ResponseWriter :=
  let w1 := w.WriteHeader StatusOK
  { w1 with body := w1.body ++ data }

/-- The value of a response header as sent to the client. -/
def ResponseWriter.sentHeader (w : ResponseWriter) (key : GoString) : Option GoString :=
  (w.sent.find? (fun kv => kv.1 = key)).map (fun kv => kv.2)

/-- The function `http.Error(w, error, code)`: a plain-text reply. -/
def httpError (w : ResponseWriter) (error : GoString) (code : Nat) : ResponseWriter :=
  let w1 := w.SetHeader (str "Content-Type") (str "text/plain; charset=utf-8")
  let w2 := w1.SetHeader (str "X-Content-Type-Options") (str "nosniff")
  let w3 := w2.WriteHeader code
  w3.Write (error ++ str "\n")

/-! ## Requests -/

/-- The parts of `*http.Request` the handlers read.

`Path` is `r.URL.Path`; `PathValues` holds the wildcard matches that
`r.PathValue` looks up; `Body` is the result of `io.ReadAll(r.Body)`. -/
structure Request where
  Path : GoString
  PathValues : List (GoString × GoString)
  Body : Except GoError GoString

/-- The call `r.PathValue(name)`: the empty string when there is no match. -/
def Request.PathValue (r : Request) (name : GoString) : GoString :=
  match r.PathValues.find? (fun kv => kv.1 = name) with
  | some kv => kv.2
  | none => []

/-- The slice expression `s[n:]`; `none` stands for the run-time panic
"slice bounds out of range". -/
def sliceFrom (s : GoString) (n : Nat) : Option GoString :=
  if n ≤ s.length then some (s.drop n) else none

/-! ## `homeHandler` and `itemIdHandler` -/

/-- The function `homeHandler`. -/
def homeHandler (w : ResponseWriter) (r : Request) : ResponseWriter :=
  if r.Path ≠ str "/" then
    let w1 := w.SetHeader (str "Content-Type") (str "text/html")
    w1.Write (str "<html><body><h1>404 - Not Found</h1><p>The requested URL " ++ r.Path
      ++ str " was not found on this server.</p></body></html>")
  else
    let w1 := w.SetHeader (str "Content-Type") (str "text/html")
    w1.Write (str "<html><body><h1>Hello, World!</h1></body></html>")

/-- The function `itemIdHandler`. -/
def itemIdHandler (w : ResponseWriter) (r : Request) : ResponseWriter :=
  let id := r.PathValue (str "id")
  let w1 := w.SetHeader (str "Content-Type") (str "text/html")
  w1.Write (str "<html><body><h1>Item: " ++ id ++ str "</h1></body></html>")

/-! ## The lifecycle controller -/

/-- The fields of `*http.Server` the controller reads. -/
structure Server where
  Addr : GoString
deriving DecidableEq, Repr

/-- Steps of the process that are visible from outside a thread of control. -/
inductive Event where
  /-- The statement `go func() ... ()`: the background goroutine is created. -/
  | spawn
  /-- Inside `ListenAndServe`: the listening socket is bound. -/
  | bind
  /-- A call of a `log` function; `msg` is the formatted message. -/
  | log (msg : GoString)
  /-- The statement `c := make(chan os.Signal, capacity)`. -/
  | makeChan (capacity : Nat)
  /-- The call `signal.Notify(c, os.Interrupt)`. -/
  | notifyInterrupt
  /-- The receive `<-c` starts; it blocks until a signal is delivered. -/
  | recvWait
  /-- The receive `<-c` has taken a signal from the channel. -/
  | recvDone
  /-- The call `context.WithTimeout(context.Background(), timeout)`. -/
  | withTimeout (timeout : Int)
  /-- The call `server.Shutdown(ctx)`. -/
  | shutdown
  /-- The call `ctx.Err()`. -/
  | ctxErr
  /-- The deferred call `cancel()`. -/
  | cancel
  /-- The process ends with the given exit status. -/
  | exit (code : Nat)
deriving DecidableEq, Repr

/-- Steps at which a thread can be suspended for an unbounded or a long time:
the channel receive and the bounded shutdown call. -/
def Event.canBlock : Event → Bool
  | .recvWait => true
  | .shutdown => true
  | _ => false

/-- The verb `%v` applied to an `error`. -/
def fmtError : Option GoError → GoString
  | none => str "<nil>"
  | some e => e.Error

/-- The function `StartServer`: the server value it returns and its steps.
The call of `ListenAndServe` is not among them: it runs on the goroutine
(`serverGoroutine`). -/
def StartServer (addr : GoString) : Server × List Event :=
  let server : Server := ⟨addr⟩
  (server, [.spawn,
    .log (str "Server is ready to handle requests at http://localhost" ++ server.Addr)])

/-- One run of `server.ListenAndServe()`. -/
inductive ListenAndServeOutcome where
  /-- The listener is bound and the accept loop does not return. -/
  | serving
  /-- The call returns `err`; `bound` tells whether the listener was bound
  before (it is not when binding fails, or when the server was already shut
  down). -/
  | returned (bound : Bool) (err : Option GoError)
deriving DecidableEq, Repr

/-- The body of the goroutine started by `StartServer`. -/
def serverGoroutine (server : Server) : ListenAndServeOutcome → List Event
  | .serving => [.bind]
  | .returned bound err =>
    (if bound then [.bind] else [])
      ++ (if err ≠ none ∧ err ≠ some .ErrServerClosed then
            -- log.Fatalf: print, then os.Exit(1)
            [.log (str "Could not listen on " ++ server.Addr ++ str ": " ++ fmtError err
              ++ str "\n"), .exit 1]
          else [])

/-- What the surroundings answer during one run of `GracefulShutdown`. -/
structure ShutdownEnv where
  /-- Whether an interrupt is ever delivered on the channel. -/
  signal : Bool
  /-- The result of `server.Shutdown(ctx)`. -/
  shutdownErr : Option GoError
  /-- The result of `ctx.Err()` when line 116 evaluates it. -/
  ctxErr : Option GoError
deriving DecidableEq, Repr

/-- An environment the library can produce: `Shutdown` returns the deadline
error only by returning `ctx.Err()`, and a context that has reported an error
keeps reporting it. -/
def ShutdownEnv.consistent (env : ShutdownEnv) : Prop :=
  env.shutdownErr = some .DeadlineExceeded → env.ctxErr = some .DeadlineExceeded

instance (env : ShutdownEnv) : Decidable env.consistent := by
  unfold ShutdownEnv.consistent; infer_instance

/-- One run of a function: its steps, and whether it returned to its caller
(`false`: it is blocked for ever). -/
structure Run where
  trace : List Event
  returned : Bool
deriving DecidableEq, Repr

/-- The messages logged during a run, in order. -/
def logsOf : List Event → List GoString
  | [] => []
  | .log msg :: rest => msg :: logsOf rest
  | _ :: rest => logsOf rest

/-- The function `GracefulShutdown`.  `Shutdown` is given a context that
expires, so the call returns. -/
def GracefulShutdown (env : ShutdownEnv) (server : Server) (timeout : Int) : Run :=
  let subscribe : List Event := [.makeChan 1, .notifyInterrupt, .recvWait]
  if env.signal = false then
    ⟨subscribe, false⟩
  else
    let upToShutdown : List Event := subscribe ++ [.recvDone,
      .log (str "Server at " ++ server.Addr ++ str " shutting down..."),
      .withTimeout timeout, .shutdown]
    if env.shutdownErr ≠ none then
      let timedOut : List Event :=
        if env.ctxErr = some .DeadlineExceeded then
          [.log (str "Graceful shutdown timed out, forcing exit.\n")]
        else []
      ⟨upToShutdown ++ [.ctxErr] ++ timedOut
        ++ [.log (str "Could not gracefully shut down the server: " ++ fmtError env.shutdownErr
              ++ str "\n"), .cancel], true⟩
    else
      ⟨upToShutdown ++ [.log (str "Server at " ++ server.Addr ++ str " stopped\n"), .cancel],
        true⟩

/-- The main goroutine: `StartServer(":8080", router)`, then
`GracefulShutdown(server, 10*time.Second)`, then the process ends. -/
def mainThread (env : ShutdownEnv) : List Event :=
  let started := StartServer (str ":8080")
  let run := GracefulShutdown env started.1 (wrap64 (10 * Second))
  started.2 ++ run.trace ++ (if run.returned then [.exit 0] else [])

/-- All the ways to merge the steps of two threads, each keeping its order. -/
def interleaveAux {α : Type} (x : α) (recTail : List α → List (List α)) (xxs : List α) :
    List α → List (List α)
  | [] => [xxs]
  | y :: ys => (recTail (y :: ys)).map (fun t => x :: t)
      ++ (interleaveAux x recTail xxs ys).map (fun t => y :: t)

/-- All interleavings of two sequences of steps. -/
def interleavings {α : Type} : List α → List α → List (List α)
  | [] => fun ys => [ys]
  | x :: xs => interleaveAux x (interleavings xs) (x :: xs)

/-- The steps of a thread that starts a goroutine at its `spawn` step: the
goroutine's steps are merged into what follows the `spawn`. -/
def afterSpawn : List Event → List Event → List (List Event)
  | [], _ => [[]]
  | e :: rest, g =>
    if e = .spawn then (interleavings rest g).map (fun t => e :: t)
    else (afterSpawn rest g).map (fun t => e :: t)

/-- A process stops at its first `exit` step. -/
def untilExit : List Event → List Event
  | [] => []
  | .exit code :: _ => [.exit code]
  | e :: rest => e :: untilExit rest

/-- The executions of `main`: every schedule of the main goroutine and the
server goroutine. -/
def executions (env : ShutdownEnv) (o : ListenAndServeOutcome) : List (List Event) :=
  (afterSpawn (mainThread env) (serverGoroutine (StartServer (str ":8080")).1 o)).map untilExit

/-- In the sequence `t`, wherever `b` occurs, `a` has occurred before its
first occurrence. -/
def occursBefore (a b : Event) (t : List Event) : Prop :=
  b ∈ t → a ∈ t.takeWhile (fun e => e ≠ b)

instance (a b : Event) (t : List Event) : Decidable (occursBefore a b t) := by
  unfold occursBefore; infer_instance

/-! ## `encoding/json`: the scanner -/

/-- A JSON value as the decoder sees it.  Literals are kept as the bytes of the
input: a number with its sign, fraction and exponent, a string (and an object
key) with its quotes and escapes. -/
inductive JsonValue where
  | null
  | bool (b : Bool)
  | number (lit : GoString)
  | string (lit : GoString)
  | array (elems : List JsonValue)
  | object (members : List (GoString × JsonValue))

/-- The constants `parseObjectKey`, `parseObjectValue`, `parseArrayValue`. -/
inductive ParseState where
  | parseObjectKey
  | parseObjectValue
  | parseArrayValue
deriving DecidableEq, Repr

/-- The step functions of `scanner.go` (`stateBeginValue`, `stateInString`, ...):
the value of the field `step`. -/
inductive ScanStep where
  | beginValueOrEmpty | beginValue | beginStringOrEmpty | beginString | endValue | endTop
  | inString | inStringEsc | inStringEscU | inStringEscU1 | inStringEscU12 | inStringEscU123
  | neg | s1 | s0 | dot | dot0 | e | eSign | e0
  | t | tr | tru | f | fa | fal | fals | n | nu | nul
  | error
deriving DecidableEq, Repr

/-- An array or object that has been opened and not yet closed: its entry in the
scanner's `parseState` stack, with the elements or members read so far (latest
first) and the key of the member being read. -/
structure OpenValue where
  ps : ParseState
  elems : List JsonValue
  members : List (GoString × JsonValue)
  key : GoString

/-- The scanner of `scanner.go`, extended with the value it has read.

`step`, `stack` (its `ps` fields are Go's `parseState`), `endTop` and `err`
(whether `s.err != nil`) are Go's fields; `lit` holds the bytes of the literal
being read and `top` the finished top-level value. -/
structure Scanner where
  step : ScanStep
  stack : List OpenValue
  endTop : Bool
  err : Bool
  lit : GoString
  top : Option JsonValue

/-- The method `reset`. -/
def Scanner.reset : Scanner := ⟨.beginValue, [], false, false, [], none⟩

/-- The method `error`: records the error and makes every later step fail. -/
def Scanner.error (s : Scanner) : Scanner := { s with step := .error, err := true }

/-- The constant `maxNestingDepth`. -/
def maxNestingDepth : Nat := 10000

/-- The function `isSpace`. -/
def isSpace (c : UInt8) : Bool := c = ch ' ' ∨ c = ch '\t' ∨ c = ch '\r' ∨ c = ch '\n'

/-- Whether `c` is an ASCII digit. -/
def isDigit (c : UInt8) : Bool := ch '0' ≤ c ∧ c ≤ ch '9'

/-- Whether `c` is a hexadecimal digit. -/
def isHex (c : UInt8) : Bool :=
  (ch '0' ≤ c ∧ c ≤ ch '9') ∨ (ch 'a' ≤ c ∧ c ≤ ch 'f') ∨ (ch 'A' ≤ c ∧ c ≤ ch 'F')

/-- The byte `"`. -/
def dquote : UInt8 := 34

/-- The byte `\`. -/
def backslash : UInt8 := 92

/-- The byte that opens an object. -/
def lbrace : UInt8 := 123

/-- The byte that closes an object. -/
def rbrace : UInt8 := 125

/-- The byte that opens an array. -/
def lbracket : UInt8 := 91

/-- The byte that closes an array. -/
def rbracket : UInt8 := 93

/-- Hands a finished value to its place: the top level, the innermost open
array, or the innermost open object (as key before the colon, as member value
after it). -/
def Scanner.emit (s : Scanner) (v : JsonValue) : Scanner :=
  match s.stack with
  | [] => { s with top := some v }
  | o :: rest =>
    match o.ps with
    | .parseObjectKey =>
      match v with
      | .string lit => { s with stack := { o with key := lit } :: rest }
      | _ => s
    | .parseObjectValue =>
      { s with stack := { o with members := (o.key, v) :: o.members } :: rest }
    | .parseArrayValue => { s with stack := { o with elems := v :: o.elems } :: rest }

/-- The method `pushParseState`; `maxDepth = none` lifts the limit on nesting. -/
def Scanner.pushParseState (maxDepth : Option Nat) (s : Scanner) (newParseState : ParseState)
    (successState : ScanStep) : Scanner :=
  let s1 := { s with stack := ⟨newParseState, [], [], []⟩ :: s.stack }
  match maxDepth with
  | none => { s1 with step := successState }
  | some d => if s1.stack.length ≤ d then { s1 with step := successState } else s1.error

/-- The method `popParseState`: the innermost open array or object is finished. -/
def Scanner.popParseState (s : Scanner) : Scanner :=
  match s.stack with
  | [] => s.error
  | o :: rest =>
    let v := match o.ps with
      | .parseArrayValue => JsonValue.array o.elems.reverse
      | _ => JsonValue.object o.members.reverse
    let s1 := ({ s with stack := rest }).emit v
    if rest.length = 0 then { s1 with step := .endTop, endTop := true }
    else { s1 with step := .endValue }

/-- The function `stateEndTop`. -/
def stateEndTop (s : Scanner) (c : UInt8) : Scanner :=
  if isSpace c then s else s.error

/-- The function `stateEndValue`. -/
def stateEndValue (s : Scanner) (c : UInt8) : Scanner :=
  match s.stack with
  | [] => stateEndTop { s with step := .endTop, endTop := true } c
  | o :: rest =>
    if isSpace c then { s with step := .endValue }
    else
      match o.ps with
      | .parseObjectKey =>
        if c = ch ':' then
          { s with stack := { o with ps := .parseObjectValue } :: rest, step := .beginValue }
        else s.error
      | .parseObjectValue =>
        if c = ch ',' then
          { s with stack := { o with ps := .parseObjectKey } :: rest, step := .beginString }
        else if c = rbrace then s.popParseState
        else s.error
      | .parseArrayValue =>
        if c = ch ',' then { s with step := .beginValue }
        else if c = rbracket then s.popParseState
        else s.error

/-- A number literal ends before the byte `c`. -/
def endNumber (s : Scanner) (c : UInt8) : Scanner :=
  stateEndValue (s.emit (.number s.lit)) c

/-- The scanner moves to `next`, the byte `c` being part of the literal. -/
def Scanner.literalByte (s : Scanner) (next : ScanStep) (c : UInt8) : Scanner :=
  { s with step := next, lit := s.lit ++ [c] }

/-- The function `stateBeginValue`. -/
def stateBeginValue (maxDepth : Option Nat) (s : Scanner) (c : UInt8) : Scanner :=
  if isSpace c then s
  else if c = lbrace then s.pushParseState maxDepth .parseObjectKey .beginStringOrEmpty
  else if c = lbracket then s.pushParseState maxDepth .parseArrayValue .beginValueOrEmpty
  else if c = dquote then { s with step := .inString, lit := [c] }
  else if c = ch '-' then { s with step := .neg, lit := [c] }
  else if c = ch '0' then { s with step := .s0, lit := [c] }
  else if c = ch 't' then { s with step := .t, lit := [c] }
  else if c = ch 'f' then { s with step := .f, lit := [c] }
  else if c = ch 'n' then { s with step := .n, lit := [c] }
  else if ch '1' ≤ c ∧ c ≤ ch '9' then { s with step := .s1, lit := [c] }
  else s.error

/-- The function `stateBeginValueOrEmpty`. -/
def stateBeginValueOrEmpty (maxDepth : Option Nat) (s : Scanner) (c : UInt8) : Scanner :=
  if isSpace c then s
  else if c = rbracket then stateEndValue s c
  else stateBeginValue maxDepth s c

/-- The function `stateBeginString`. -/
def stateBeginString (s : Scanner) (c : UInt8) : Scanner :=
  if isSpace c then s
  else if c = dquote then { s with step := .inString, lit := [c] }
  else s.error

/-- The function `stateBeginStringOrEmpty`. -/
def stateBeginStringOrEmpty (s : Scanner) (c : UInt8) : Scanner :=
  if isSpace c then s
  else if c = rbrace then
    match s.stack with
    | [] => s.error
    | o :: rest => stateEndValue { s with stack := { o with ps := .parseObjectValue } :: rest } c
  else stateBeginString s c

/-- The function `stateInString`. -/
def stateInString (s : Scanner) (c : UInt8) : Scanner :=
  if c = dquote then
    let s1 := s.literalByte .endValue c
    s1.emit (.string s1.lit)
  else if c = backslash then s.literalByte .inStringEsc c
  else if c < 0x20 then s.error
  else s.literalByte .inString c

/-- The function `stateInStringEsc`. -/
def stateInStringEsc (s : Scanner) (c : UInt8) : Scanner :=
  if c = ch 'b' ∨ c = ch 'f' ∨ c = ch 'n' ∨ c = ch 'r' ∨ c = ch 't' ∨ c = backslash
      ∨ c = ch '/' ∨ c = dquote then
    s.literalByte .inString c
  else if c = ch 'u' then s.literalByte .inStringEscU c
  else s.error

/-- The functions `stateInStringEscU`, `stateInStringEscU1`, `stateInStringEscU12`
and `stateInStringEscU123`: a hexadecimal digit leads to `next`. -/
def stateHex (next : ScanStep) (s : Scanner) (c : UInt8) : Scanner :=
  if isHex c then s.literalByte next c else s.error

/-- The function `stateNeg`. -/
def stateNeg (s : Scanner) (c : UInt8) : Scanner :=
  if c = ch '0' then s.literalByte .s0 c
  else if ch '1' ≤ c ∧ c ≤ ch '9' then s.literalByte .s1 c
  else s.error

/-- The function `state0`. -/
def state0 (s : Scanner) (c : UInt8) : Scanner :=
  if c = ch '.' then s.literalByte .dot c
  else if c = ch 'e' ∨ c = ch 'E' then s.literalByte .e c
  else endNumber s c

/-- The function `state1`. -/
def state1 (s : Scanner) (c : UInt8) : Scanner :=
  if isDigit c then s.literalByte .s1 c else state0 s c

/-- The function `stateDot`. -/
def stateDot (s : Scanner) (c : UInt8) : Scanner :=
  if isDigit c then s.literalByte .dot0 c else s.error

/-- The function `stateDot0`. -/
def stateDot0 (s : Scanner) (c : UInt8) : Scanner :=
  if isDigit c then s.literalByte .dot0 c
  else if c = ch 'e' ∨ c = ch 'E' then s.literalByte .e c
  else endNumber s c

/-- The function `stateESign`. -/
def stateESign (s : Scanner) (c : UInt8) : Scanner :=
  if isDigit c then s.literalByte .e0 c else s.error

/-- The function `stateE`. -/
def stateE (s : Scanner) (c : UInt8) : Scanner :=
  if c = ch '+' ∨ c = ch '-' then s.literalByte .eSign c else stateESign s c

/-- The function `stateE0`. -/
def stateE0 (s : Scanner) (c : UInt8) : Scanner :=
  if isDigit c then s.literalByte .e0 c else endNumber s c

/-- The functions `stateT`, `stateTr`, `stateF`, ..., `stateNu`: inside one of
the words `true`, `false`, `null`, the byte `want` leads to `next`. -/
def stateWord (want : UInt8) (next : ScanStep) (s : Scanner) (c : UInt8) : Scanner :=
  if c = want then s.literalByte next c else s.error

/-- The functions `stateTru`, `stateFals`, `stateNul`: the last byte of a word
finishes the value `v`. -/
def stateWordEnd (want : UInt8) (v : JsonValue) (s : Scanner) (c : UInt8) : Scanner :=
  if c = want then (s.literalByte .endValue c).emit v else s.error

/-- One call `s.step(s, c)`.  Once an error is recorded every call fails. -/
def Scanner.next (maxDepth : Option Nat) (s : Scanner) (c : UInt8) : Scanner :=
  if s.err then s
  else
    match s.step with
    | .beginValueOrEmpty => stateBeginValueOrEmpty maxDepth s c
    | .beginValue => stateBeginValue maxDepth s c
    | .beginStringOrEmpty => stateBeginStringOrEmpty s c
    | .beginString => stateBeginString s c
    | .endValue => stateEndValue s c
    | .endTop => stateEndTop s c
    | .inString => stateInString s c
    | .inStringEsc => stateInStringEsc s c
    | .inStringEscU => stateHex .inStringEscU1 s c
    | .inStringEscU1 => stateHex .inStringEscU12 s c
    | .inStringEscU12 => stateHex .inStringEscU123 s c
    | .inStringEscU123 => stateHex .inString s c
    | .neg => stateNeg s c
    | .s1 => state1 s c
    | .s0 => state0 s c
    | .dot => stateDot s c
    | .dot0 => stateDot0 s c
    | .e => stateE s c
    | .eSign => stateESign s c
    | .e0 => stateE0 s c
    | .t => stateWord (ch 'r') .tr s c
    | .tr => stateWord (ch 'u') .tru s c
    | .tru => stateWordEnd (ch 'e') (.bool true) s c
    | .f => stateWord (ch 'a') .fa s c
    | .fa => stateWord (ch 'l') .fal s c
    | .fal => stateWord (ch 's') .fals s c
    | .fals => stateWordEnd (ch 'e') (.bool false) s c
    | .n => stateWord (ch 'u') .nu s c
    | .nu => stateWord (ch 'l') .nul s c
    | .nul => stateWordEnd (ch 'l') .null s c
    | .error => s.error

/-- The method `eof`: the scanner after the end of the input.  The input was a
complete JSON value exactly when the result has `endTop` set and no error. -/
def Scanner.eof (maxDepth : Option Nat) (s : Scanner) : Scanner :=
  if s.err then s
  else if s.endTop then s
  else
    let s1 := s.next maxDepth (ch ' ')
    if s1.endTop then s1 else s1.error

/-- The scanner after all of `data` and the end of the input. -/
def scanAll (maxDepth : Option Nat) (data : GoString) : Scanner :=
  (data.foldl (Scanner.next maxDepth) Scanner.reset).eof maxDepth

/-- The function `checkValid`, with `true` for the result `nil`. -/
def checkValid (maxDepth : Option Nat) (data : GoString) : Bool :=
  let s := scanAll maxDepth data
  !s.err && s.endTop

/-- Whether `data` follows the JSON grammar: accepted by the scanner, at any
depth of nesting.  The scanner lets every byte from 0x20 on pass inside a string
literal, so this says nothing about the encoding of the strings (`isJSONText`
adds that). -/
def validJSON (data : GoString) : Bool := checkValid none data

/-- The scanner has kept the value it accepted: once the top-level value is
complete it is present in `top`, and before that the steps that end a value are
only taken inside an open array or object. -/
def Scanner.coherent (s : Scanner) : Prop :=
  s.err = true ∨ s.top.isSome = true
    ∨ (s.endTop = false ∧ (s.step = .endValue → s.stack ≠ [])
        ∧ (s.step = .beginValueOrEmpty → s.stack ≠ []))

/-! ## `encoding/json`: decoding into `PostRequestBody` -/

/-- The struct `PostRequestBody`; `Sleep` is a Go `int` (64 bit). -/
structure PostRequestBody where
  Sleep : Int
deriving DecidableEq, Repr

/-- The errors `json.Unmarshal` returns: `*json.SyntaxError`, and
`*json.UnmarshalTypeError` with its field `Value`. -/
inductive JsonError where
  | SyntaxError
  | UnmarshalTypeError (value : GoString)
deriving DecidableEq, Repr

/-- The value of a hexadecimal digit. -/
def hexValue (c : UInt8) : Nat :=
  if ch '0' ≤ c ∧ c ≤ ch '9' then c.toNat - 48
  else if ch 'a' ≤ c ∧ c ≤ ch 'f' then c.toNat - 97 + 10
  else c.toNat - 65 + 10

/-- The function `getu4`: the rune of a leading `\uXXXX`, `none` for Go's `-1`. -/
def getu4 : GoString → Option Nat
  | b :: u :: h1 :: h2 :: h3 :: h4 :: _ =>
    if b = backslash ∧ u = ch 'u' ∧ isHex h1 ∧ isHex h2 ∧ isHex h3 ∧ isHex h4 then
      some (((hexValue h1 * 16 + hexValue h2) * 16 + hexValue h3) * 16 + hexValue h4)
    else none
  | _ => none

/-- The function `utf8.EncodeRune`: a surrogate or a rune beyond U+10FFFF is
encoded as U+FFFD. -/
def encodeRune (r : Nat) : GoString :=
  if r < 0x80 then [UInt8.ofNat r]
  else if r < 0x800 then [UInt8.ofNat (0xC0 + r / 64), UInt8.ofNat (0x80 + r % 64)]
  else if (0xD800 ≤ r ∧ r < 0xE000) ∨ 0x10FFFF < r then [0xEF, 0xBF, 0xBD]
  else if r < 0x10000 then
    [UInt8.ofNat (0xE0 + r / 4096), UInt8.ofNat (0x80 + r / 64 % 64), UInt8.ofNat (0x80 + r % 64)]
  else
    [UInt8.ofNat (0xF0 + r / 262144), UInt8.ofNat (0x80 + r / 4096 % 64),
      UInt8.ofNat (0x80 + r / 64 % 64), UInt8.ofNat (0x80 + r % 64)]

/-- The function `utf16.DecodeRune` for a surrogate `r1` followed by `r2`
(`none`: no `\uXXXX` follows): U+FFFD unless they form a valid pair. -/
def decodeSurrogates (r1 : Nat) (r2 : Option Nat) : Nat :=
  match r2 with
  | some r2 =>
    if 0xD800 ≤ r1 ∧ r1 < 0xDC00 ∧ 0xDC00 ≤ r2 ∧ r2 < 0xE000 then
      (r1 - 0xD800) * 1024 + (r2 - 0xDC00) + 0x10000
    else 0xFFFD
  | none => 0xFFFD

/-- Whether `c` is a UTF-8 continuation byte in the range `lo..hi`. -/
def inRange (lo hi c : UInt8) : Bool := lo ≤ c ∧ c ≤ hi

/-- The size `utf8.DecodeRune` reports for the encoded rune that starts with
the byte `c ≥ 0x80`, followed by `rest`; `0` when the bytes are not a valid
encoding (Go then reports `RuneError` with size 1). -/
def utf8Size (c : UInt8) (rest : GoString) : Nat :=
  if inRange 0xC2 0xDF c then
    match rest with
    | c1 :: _ => if inRange 0x80 0xBF c1 then 2 else 0
    | _ => 0
  else if inRange 0xE0 0xEF c then
    match rest with
    | c1 :: c2 :: _ =>
      let lo : UInt8 := if c = 0xE0 then 0xA0 else 0x80
      let hi : UInt8 := if c = 0xED then 0x9F else 0xBF
      if inRange lo hi c1 ∧ inRange 0x80 0xBF c2 then 3 else 0
    | _ => 0
  else if inRange 0xF0 0xF4 c then
    match rest with
    | c1 :: c2 :: c3 :: _ =>
      let lo : UInt8 := if c = 0xF0 then 0x90 else 0x80
      let hi : UInt8 := if c = 0xF4 then 0x8F else 0xBF
      if inRange lo hi c1 ∧ inRange 0x80 0xBF c2 ∧ inRange 0x80 0xBF c3 then 4 else 0
    | _ => 0
  else 0

/-- The loop of `unquoteBytes` over the inside of a string literal; `none` for
the result `ok = false`.  `pending` counts the bytes still to copy of a valid
multi-byte rune (decoding and encoding such a rune leaves its bytes as they
are); an invalid byte becomes U+FFFD. -/
def unquoteLoop : Nat → GoString → Option GoString
  | _, [] => some []
  | pending + 1, c :: rest => (unquoteLoop pending rest).map (fun t => c :: t)
  | 0, c :: rest =>
    if c = backslash then
      match rest with
      | [] => none
      | e :: rest1 =>
        if e = dquote ∨ e = backslash ∨ e = ch '/' ∨ e = 39 then
          (unquoteLoop 0 rest1).map (fun t => e :: t)
        else if e = ch 'b' then (unquoteLoop 0 rest1).map (fun t => 8 :: t)
        else if e = ch 'f' then (unquoteLoop 0 rest1).map (fun t => 12 :: t)
        else if e = ch 'n' then (unquoteLoop 0 rest1).map (fun t => 10 :: t)
        else if e = ch 'r' then (unquoteLoop 0 rest1).map (fun t => 13 :: t)
        else if e = ch 't' then (unquoteLoop 0 rest1).map (fun t => 9 :: t)
        else if e = ch 'u' then
          match getu4 (c :: rest), rest1 with
          | some rr, _ :: _ :: _ :: _ :: rest2 =>
            if 0xD800 ≤ rr ∧ rr < 0xE000 then
              let dec := decodeSurrogates rr (getu4 rest2)
              if dec ≠ 0xFFFD then
                match rest2 with
                | _ :: _ :: _ :: _ :: _ :: _ :: rest3 =>
                  (unquoteLoop 0 rest3).map (fun t => encodeRune dec ++ t)
                | _ => none
              else (unquoteLoop 0 rest2).map (fun t => encodeRune 0xFFFD ++ t)
            else (unquoteLoop 0 rest2).map (fun t => encodeRune rr ++ t)
          | _, _ => none
        else none
    else if c = dquote ∨ c < 0x20 then none
    else if c < 0x80 then (unquoteLoop 0 rest).map (fun t => c :: t)
    else
      match utf8Size c rest with
      | 0 => (unquoteLoop 0 rest).map (fun t => encodeRune 0xFFFD ++ t)
      | size + 1 => (unquoteLoop size rest).map (fun t => c :: t)

/-- The function `unquoteBytes`: the text of a quoted string literal. -/
def unquoteBytes (s : GoString) : Option GoString :=
  if s.length < 2 ∨ s.head? ≠ some dquote ∨ s.getLast? ≠ some dquote then none
  else unquoteLoop 0 (s.drop 1).dropLast

/-- Whether the bytes after `pending` continuation bytes already checked are
well-formed UTF-8. -/
def validUTF8Loop : Nat → GoString → Bool
  | 0, [] => true
  | _ + 1, [] => false
  | pending + 1, _ :: rest => validUTF8Loop pending rest
  | 0, c :: rest =>
    if c < 0x80 then validUTF8Loop 0 rest
    else
      match utf8Size c rest with
      | 0 => false
      | size + 1 => validUTF8Loop size rest

/-- The function `utf8.Valid`: whether `data` is well-formed UTF-8. -/
def validUTF8 (data : GoString) : Bool := validUTF8Loop 0 data

/-- Whether `data` is a JSON text in the sense of RFC 8259: well-formed UTF-8
(section 8.1) that follows the JSON grammar. -/
def isJSONText (data : GoString) : Bool := validUTF8 data && validJSON data

/-- The function `foldName`: ASCII letters become upper case and the two
non-ASCII runes whose case folding is an ASCII letter, U+017F and U+212A, become
`S` and `K`.  Every other rune folds to a non-ASCII rune; its bytes are kept,
which leaves the comparison with the folded name of an ASCII field as it is. -/
def foldName : GoString → GoString
  | [] => []
  | c :: rest =>
    if ch 'a' ≤ c ∧ c ≤ ch 'z' then (c - 32) :: foldName rest
    else
      match rest with
      | [] => [c]
      | c1 :: rest1 =>
        if c = 0xC5 ∧ c1 = 0xBF then ch 'S' :: foldName rest1
        else
          match rest1 with
          | [] => c :: foldName [c1]
          | c2 :: rest2 =>
            if c = 0xE2 ∧ c1 = 0x84 ∧ c2 = 0xAA then ch 'K' :: foldName rest2
            else c :: foldName (c1 :: c2 :: rest2)

/-- The lookup of an object key among the fields of `PostRequestBody`: the
exact name `sleep` of the struct tag, or else a name equal to it under case
folding. -/
def isSleepField (key : GoString) : Bool :=
  key = str "sleep" ∨ foldName key = foldName (str "sleep")

/-- The function `strconv.ParseInt(s, 10, 64)`; `none` when it returns an error
(not an integer in base 10, or out of the range of `int64`). -/
def ParseInt (s : GoString) : Option Int :=
  let neg := s.head? = some (ch '-')
  let digits := if s.head? = some (ch '-') ∨ s.head? = some (ch '+') then s.drop 1 else s
  if digits = [] ∨ ¬ digits.all isDigit then none
  else
    let n : Nat := digits.foldl (fun acc d => acc * 10 + (d.toNat - 48)) 0
    let v : Int := if neg then -(n : Int) else (n : Int)
    if v < -(2 ^ 63) ∨ 2 ^ 63 - 1 < v then none else some v

/-- The method `saveError`: only the first error is kept. -/
def saveError (saved : Option JsonError) (err : JsonError) : Option JsonError :=
  match saved with
  | some e => some e
  | none => some err

/-- Decoding the value of a member into the field `Sleep` of type `int`
(`d.value` on the field): `null` leaves the field as it is, an integer
literal in range is stored, everything else is an `UnmarshalTypeError`. -/
def storeSleep (v : JsonValue) (st : PostRequestBody × Option JsonError) :
    PostRequestBody × Option JsonError :=
  match v with
  | .null => st
  | .number lit =>
    match ParseInt lit with
    | some n => ({ st.1 with Sleep := n }, st.2)
    | none => (st.1, saveError st.2 (.UnmarshalTypeError (str "number " ++ lit)))
  | .bool _ => (st.1, saveError st.2 (.UnmarshalTypeError (str "bool")))
  | .string _ => (st.1, saveError st.2 (.UnmarshalTypeError (str "string")))
  | .array _ => (st.1, saveError st.2 (.UnmarshalTypeError (str "array")))
  | .object _ => (st.1, saveError st.2 (.UnmarshalTypeError (str "object")))

/-- One member of the top-level object (`d.object`): decoded into `Sleep` when
its key names that field, skipped otherwise. -/
def decodeMember (st : PostRequestBody × Option JsonError) (m : GoString × JsonValue) :
    PostRequestBody × Option JsonError :=
  match unquoteBytes m.1 with
  | some key => if isSleepField key then storeSleep m.2 st else st
  | none => st

/-- Decoding a top-level value into a `PostRequestBody` (`d.value` on the
struct). -/
def decodeValue (v : JsonValue) (dst : PostRequestBody) : PostRequestBody × Option JsonError :=
  match v with
  | .object members => members.foldl decodeMember (dst, none)
  | .null => (dst, none)
  | .array _ => (dst, some (.UnmarshalTypeError (str "array")))
  | .string _ => (dst, some (.UnmarshalTypeError (str "string")))
  | .number _ => (dst, some (.UnmarshalTypeError (str "number")))
  | .bool _ => (dst, some (.UnmarshalTypeError (str "bool")))

/-- The value the decoder reads from `data`: `none` when `checkValid` rejects
the input. -/
def parseJSON (maxDepth : Option Nat) (data : GoString) : Option JsonValue :=
  if checkValid maxDepth data then (scanAll maxDepth data).top else none

/-- The function `json.Unmarshal(data, &dst)`: the struct after the call and the
error returned.  The input is checked as a whole first; nothing is stored when
it is not valid JSON. -/
def Unmarshal (data : GoString) (dst : PostRequestBody) : PostRequestBody × Option JsonError :=
  match parseJSON (some maxNestingDepth) data with
  | none => (dst, some .SyntaxError)
  | some v => decodeValue v dst

/-- What a handler does besides writing its response. -/
inductive Effect where
  /-- A call of `log.Printf`, with the formatted message. -/
  | log (msg : GoString)
  /-- A call of `time.Sleep`, with the duration in nanoseconds. -/
  | sleep (d : Int)
  /-- The deferred call `r.Body.Close()`. -/
  | closeBody
deriving DecidableEq, Repr

/-- One run of a handler: the response, the other effects in order, and whether
the run ended in a panic. -/
structure HandlerRun where
  w : ResponseWriter
  effects : List Effect
  panicked : Bool
deriving DecidableEq, Repr

/-- Lines 62 to 73 of `itemPostHandler`: the sleep step and the response. -/
def itemPostRespond (w : ResponseWriter) (r : Request) (sleepDuration : Int) : HandlerRun :=
  let slept : List Effect :=
    if sleepDuration > 0 then
      [.log (str "Sleeping for " ++ fmtInt sleepDuration ++ str " seconds"),
        .sleep (secondsToDuration sleepDuration)]
    else []
  match sliceFrom r.Path (str "/item/").length with
  | none => ⟨w, slept ++ [.closeBody], true⟩
  | some id =>
    let w1 := w.SetHeader (str "Content-Type") (str "text/html")
    ⟨w1.Write (str "<html><body><h1>Post Item: " ++ id ++ str "</h1></body></html>"),
      slept ++ [.closeBody], false⟩

/-- The function `itemPostHandler`. -/
def itemPostHandler (w : ResponseWriter) (r : Request) : HandlerRun :=
  match r.Body with
  | .error _ => ⟨httpError w (str "Failed to read request body") StatusBadRequest, [], false⟩
  | .ok body =>
    -- from here on `r.Body.Close()` is deferred
    let sleepDuration : Int := 0
    if body.length > 0 then
      let decoded := Unmarshal body ⟨0⟩
      if decoded.2 ≠ none then
        ⟨httpError w (str "Invalid request body format") StatusBadRequest, [.closeBody], false⟩
      else
        itemPostRespond w r decoded.1.Sleep
    else
      itemPostRespond w r sleepDuration

/-! ## Theorems -/

/-! ### Byte strings -/

theorem ne_of_head?_ne {l₁ l₂ : GoString} (h : l₁.head? ≠ l₂.head?) : l₁ ≠ l₂ :=
  fun e => h (by rw [e])

theorem head?_append_lit (lit rest : GoString) (h : lit ≠ []) :
    (lit ++ rest).head? = lit.head? := by
  cases lit with
  | nil => exact absurd rfl h
  | cons a l => rfl

theorem head?_of_isPrefix {p m : GoString} (h : p <+: m) (hp : p ≠ []) :
    m.head? = p.head? := by
  obtain ⟨t, rfl⟩ := h
  exact head?_append_lit p t hp

/-! ### The log of `GracefulShutdown` -/

theorem GracefulShutdown_logs_stopped (env : ShutdownEnv) (server : Server) (timeout : Int)
    (hsig : env.signal = true) (herr : env.shutdownErr = none) :
    logsOf (GracefulShutdown env server timeout).trace
      = [str "Server at " ++ server.Addr ++ str " shutting down...",
         str "Server at " ++ server.Addr ++ str " stopped\n"] := by
  simp [GracefulShutdown, hsig, herr, logsOf]

theorem GracefulShutdown_logs_error (env : ShutdownEnv) (server : Server) (timeout : Int)
    (err : GoError) (hsig : env.signal = true) (herr : env.shutdownErr = some err)
    (hctx : env.ctxErr ≠ some .DeadlineExceeded) :
    logsOf (GracefulShutdown env server timeout).trace
      = [str "Server at " ++ server.Addr ++ str " shutting down...",
         str "Could not gracefully shut down the server: " ++ err.Error ++ str "\n"] := by
  simp [GracefulShutdown, hsig, herr, hctx, logsOf, fmtError]

theorem GracefulShutdown_logs_deadline (env : ShutdownEnv) (server : Server) (timeout : Int)
    (err : GoError) (hsig : env.signal = true) (herr : env.shutdownErr = some err)
    (hctx : env.ctxErr = some .DeadlineExceeded) :
    logsOf (GracefulShutdown env server timeout).trace
      = [str "Server at " ++ server.Addr ++ str " shutting down...",
         str "Graceful shutdown timed out, forcing exit.\n",
         str "Could not gracefully shut down the server: " ++ err.Error ++ str "\n"] := by
  simp [GracefulShutdown, hsig, herr, hctx, logsOf, fmtError]

theorem GracefulShutdown_returned (env : ShutdownEnv) (server : Server) (timeout : Int)
    (hsig : env.signal = true) : (GracefulShutdown env server timeout).returned = true := by
  unfold GracefulShutdown
  by_cases herr : env.shutdownErr = none <;> simp [hsig, herr]

theorem shuttingDown_ne_stopped (addr : GoString) :
    str "Server at " ++ addr ++ str " shutting down..."
      ≠ str "Server at " ++ addr ++ str " stopped\n" := by
  intro h
  rw [List.append_assoc, List.append_assoc] at h
  have h2 := List.append_cancel_left (List.append_cancel_left h)
  revert h2
  decide

theorem shuttingDown_head (addr : GoString) :
    (str "Server at " ++ addr ++ str " shutting down...").head? = some (ch 'S') := by
  rw [List.append_assoc, head?_append_lit _ _ (by decide)]
  decide

theorem stopped_head (addr : GoString) :
    (str "Server at " ++ addr ++ str " stopped\n").head? = some (ch 'S') := by
  rw [List.append_assoc, head?_append_lit _ _ (by decide)]
  decide

theorem couldNot_head (msg : GoString) :
    (str "Could not gracefully shut down the server: " ++ msg ++ str "\n").head?
      = some (ch 'C') := by
  rw [List.append_assoc, head?_append_lit _ _ (by decide)]
  decide

theorem timedOut_head :
    (str "Graceful shutdown timed out, forcing exit.\n").head? = some (ch 'G') := by
  decide


/-- C6: for every request path `p`, `homeHandler` sends `Content-Type: text/html`
and status 200 (it never calls `WriteHeader`); for `p = "/"` the body is exactly
the Hello page, and for every other `p` the body contains `404 - Not Found` and
contains `p` verbatim. -/
theorem homeHandler_response (p : GoString) (pv : List (GoString × GoString))
    (b : Except GoError GoString) :
    let w := homeHandler ResponseWriter.fresh ⟨p, pv, b⟩
    w.sentHeader (str "Content-Type") = some (str "text/html")
      ∧ w.status = some 200
      ∧ (p = str "/" → w.body = str "<html><body><h1>Hello, World!</h1></body></html>")
      ∧ (p ≠ str "/" → str "404 - Not Found" <:+: w.body ∧ p <:+: w.body) := by
  intro w
  by_cases hp : p = str "/"
  · refine ⟨?_, ?_, ?_, fun h => absurd hp h⟩
    · simp [w, homeHandler, hp, ResponseWriter.sentHeader, ResponseWriter.Write,
        ResponseWriter.WriteHeader, ResponseWriter.SetHeader, ResponseWriter.fresh]
    · simp [w, homeHandler, hp, ResponseWriter.Write, ResponseWriter.WriteHeader,
        ResponseWriter.SetHeader, ResponseWriter.fresh, StatusOK]
    · intro _
      simp [w, homeHandler, hp, ResponseWriter.Write, ResponseWriter.WriteHeader,
        ResponseWriter.SetHeader, ResponseWriter.fresh]
  · refine ⟨?_, ?_, fun h => absurd h hp, fun _ => ⟨?_, ?_⟩⟩
    · simp [w, homeHandler, hp, ResponseWriter.sentHeader, ResponseWriter.Write,
        ResponseWriter.WriteHeader, ResponseWriter.SetHeader, ResponseWriter.fresh]
    · simp [w, homeHandler, hp, ResponseWriter.Write, ResponseWriter.WriteHeader,
        ResponseWriter.SetHeader, ResponseWriter.fresh, StatusOK]
    · have hw : w.body = str "<html><body><h1>" ++ (str "404 - Not Found"
          ++ (str "</h1><p>The requested URL " ++ p
            ++ str " was not found on this server.</p></body></html>")) := by
        have hlit : str "<html><body><h1>404 - Not Found</h1><p>The requested URL "
            = str "<html><body><h1>" ++ (str "404 - Not Found"
              ++ str "</h1><p>The requested URL ") := by decide
        simp [w, homeHandler, hp, ResponseWriter.Write, ResponseWriter.WriteHeader,
          ResponseWriter.SetHeader, ResponseWriter.fresh, hlit]
      rw [hw]
      exact ⟨str "<html><body><h1>", str "</h1><p>The requested URL " ++ p
        ++ str " was not found on this server.</p></body></html>", by simp⟩
    · have hw : w.body = str "<html><body><h1>404 - Not Found</h1><p>The requested URL "
          ++ (p ++ str " was not found on this server.</p></body></html>") := by
        simp [w, homeHandler, hp, ResponseWriter.Write, ResponseWriter.WriteHeader,
          ResponseWriter.SetHeader, ResponseWriter.fresh]
      rw [hw]
      exact ⟨str "<html><body><h1>404 - Not Found</h1><p>The requested URL ",
        str " was not found on this server.</p></body></html>", by simp⟩

/-! ### `GracefulShutdown` -/

/-- C1: whenever `Shutdown` has been called (a signal was received),
`GracefulShutdown` returns to its caller and logs exactly one of the two outcome
lines.  If `Shutdown` returned no error the log holds the line
`Server at {addr} stopped` once and no line starting with
`Could not gracefully shut down the server:`; if it returned an error `err`
(the deadline error included) the log holds the line
`Could not gracefully shut down the server: {err}` once and no `stopped` line. -/
theorem GracefulShutdown_outcome_line (env : ShutdownEnv) (server : Server) (timeout : Int)
    (hsig : env.signal = true) :
    let run := GracefulShutdown env server timeout
    let stopped := str "Server at " ++ server.Addr ++ str " stopped\n"
    run.returned = true
      ∧ (env.shutdownErr = none →
          (logsOf run.trace).count stopped = 1
          ∧ ∀ m ∈ logsOf run.trace,
              ¬ str "Could not gracefully shut down the server:" <+: m)
      ∧ (∀ err, env.shutdownErr = some err →
          (logsOf run.trace).count
              (str "Could not gracefully shut down the server: " ++ err.Error ++ str "\n") = 1
          ∧ stopped ∉ logsOf run.trace) := by
  intro run stopped
  refine ⟨GracefulShutdown_returned env server timeout hsig, ?_, ?_⟩
  · intro herr
    have hlog := GracefulShutdown_logs_stopped env server timeout hsig herr
    simp only [run, hlog]
    constructor
    · rw [List.count_cons_of_ne (shuttingDown_ne_stopped server.Addr).symm,
        List.count_cons_self, List.count_nil]
    · intro m hm hpre
      have hhead := head?_of_isPrefix hpre (by decide)
      simp only [List.mem_cons, List.mem_singleton, List.not_mem_nil, or_false] at hm
      rcases hm with rfl | rfl
      · rw [shuttingDown_head] at hhead
        revert hhead
        decide
      · rw [stopped_head] at hhead
        revert hhead
        decide
  · intro err herr
    have hS : ∀ msg : GoString,
        str "Server at " ++ server.Addr ++ str " shutting down..."
          ≠ str "Could not gracefully shut down the server: " ++ msg ++ str "\n" := by
      intro msg
      apply ne_of_head?_ne
      rw [shuttingDown_head, couldNot_head]
      decide
    have hG : ∀ msg : GoString,
        str "Graceful shutdown timed out, forcing exit.\n"
          ≠ str "Could not gracefully shut down the server: " ++ msg ++ str "\n" := by
      intro msg
      apply ne_of_head?_ne
      rw [timedOut_head, couldNot_head]
      decide
    have hC : stopped
        ≠ str "Could not gracefully shut down the server: " ++ err.Error ++ str "\n" := by
      apply ne_of_head?_ne
      rw [stopped_head, couldNot_head]
      decide
    have hG2 : stopped ≠ str "Graceful shutdown timed out, forcing exit.\n" := by
      apply ne_of_head?_ne
      rw [stopped_head, timedOut_head]
      decide
    have hS2 := shuttingDown_ne_stopped server.Addr
    by_cases hctx : env.ctxErr = some .DeadlineExceeded
    · have hlog := GracefulShutdown_logs_deadline env server timeout err hsig herr hctx
      simp only [run, hlog]
      constructor
      · rw [List.count_cons_of_ne (hS err.Error).symm, List.count_cons_of_ne (hG err.Error).symm,
          List.count_cons_self, List.count_nil]
      · simp only [List.mem_cons, List.mem_singleton, List.not_mem_nil, or_false, not_or]
        exact ⟨fun h => hS2 h.symm, hG2, hC⟩
    · have hlog := GracefulShutdown_logs_error env server timeout err hsig herr hctx
      simp only [run, hlog]
      constructor
      · rw [List.count_cons_of_ne (hS err.Error).symm, List.count_cons_self, List.count_nil]
      · simp only [List.mem_cons, List.mem_singleton, List.not_mem_nil, or_false, not_or]
        exact ⟨fun h => hS2 h.symm, hC⟩

/-- Witness of C1: a clean shutdown of the server at `:8080`. -/
theorem GracefulShutdown_outcome_line_witness :
    (GracefulShutdown ⟨true, none, none⟩ ⟨str ":8080"⟩ 10000000000).returned = true
      ∧ (logsOf (GracefulShutdown ⟨true, none, none⟩ ⟨str ":8080"⟩ 10000000000).trace).count
          (str "Server at :8080 stopped\n") = 1 := by
  have h := GracefulShutdown_outcome_line ⟨true, none, none⟩ ⟨str ":8080"⟩ 10000000000 rfl
  exact ⟨h.1, (h.2.1 rfl).1⟩

/-- C2, counterexample: `Shutdown` returns an error that is not the deadline
error (closing the listener failed; the drain itself had completed), the context
expires before line 116 asks for `ctx.Err()`, and `GracefulShutdown` logs the
line `Graceful shutdown timed out, forcing exit.` all the same. -/
theorem GracefulShutdown_timed_out_line_without_deadline_error :
    GoError.other (str "close tcp [::]:8080: use of closed network connection")
        ≠ GoError.DeadlineExceeded
      ∧ ShutdownEnv.consistent
          ⟨true, some (.other (str "close tcp [::]:8080: use of closed network connection")),
            some .DeadlineExceeded⟩
      ∧ logsOf (GracefulShutdown
          ⟨true, some (.other (str "close tcp [::]:8080: use of closed network connection")),
            some .DeadlineExceeded⟩ ⟨str ":8080"⟩ 1000000).trace
        = [str "Server at :8080 shutting down...",
           str "Graceful shutdown timed out, forcing exit.\n",
           str ("Could not gracefully shut down the server: "
             ++ "close tcp [::]:8080: use of closed network connection\n")] := by
  decide

/-- C2, amended: whenever `Shutdown` returns an error `err`, the line
`Graceful shutdown timed out, forcing exit.` is logged if and only if `ctx.Err()`,
evaluated after `Shutdown` has returned, is `context.DeadlineExceeded`.  In that
case the log is the `shutting down` line, the timed-out line and the
`Could not gracefully shut down the server: {err}` line; otherwise it is the
`shutting down` line and the `Could not ...` line only.  A deadline-caused error
(`err` is the context's deadline error) is always in the first case. -/
theorem GracefulShutdown_timed_out_line_iff (env : ShutdownEnv) (server : Server)
    (timeout : Int) (err : GoError) (hsig : env.signal = true)
    (herr : env.shutdownErr = some err) :
    let logs := logsOf (GracefulShutdown env server timeout).trace
    let shuttingDown := str "Server at " ++ server.Addr ++ str " shutting down..."
    let timedOut := str "Graceful shutdown timed out, forcing exit.\n"
    let couldNot := str "Could not gracefully shut down the server: " ++ err.Error ++ str "\n"
    (timedOut ∈ logs ↔ env.ctxErr = some .DeadlineExceeded)
      ∧ (env.ctxErr = some .DeadlineExceeded → logs = [shuttingDown, timedOut, couldNot])
      ∧ (env.ctxErr ≠ some .DeadlineExceeded → logs = [shuttingDown, couldNot])
      ∧ (env.consistent → err = .DeadlineExceeded →
          logs = [shuttingDown, timedOut, couldNot]) := by
  intro logs shuttingDown timedOut couldNot
  have hS : shuttingDown ≠ timedOut := by
    apply ne_of_head?_ne
    rw [shuttingDown_head, timedOut_head]
    decide
  have hC : couldNot ≠ timedOut := by
    apply ne_of_head?_ne
    rw [couldNot_head, timedOut_head]
    decide
  have hyes : env.ctxErr = some .DeadlineExceeded → logs = [shuttingDown, timedOut, couldNot] :=
    fun hctx => GracefulShutdown_logs_deadline env server timeout err hsig herr hctx
  have hno : env.ctxErr ≠ some .DeadlineExceeded → logs = [shuttingDown, couldNot] :=
    fun hctx => GracefulShutdown_logs_error env server timeout err hsig herr hctx
  refine ⟨?_, hyes, hno, ?_⟩
  · by_cases hctx : env.ctxErr = some .DeadlineExceeded
    · rw [hyes hctx]
      simp [hctx]
    · rw [hno hctx]
      simp only [List.mem_cons, List.mem_singleton, List.not_mem_nil, or_false, hctx,
        iff_false, not_or]
      exact ⟨fun h => hS h.symm, fun h => hC h.symm⟩
  · intro hcons hdead
    apply hyes
    apply hcons
    rw [herr, hdead]

/-- Witness of the amended C2: the deadline elapses while a request is still
being served. -/
theorem GracefulShutdown_timed_out_line_iff_witness :
    logsOf (GracefulShutdown ⟨true, some .DeadlineExceeded, some .DeadlineExceeded⟩
        ⟨str ":8080"⟩ 1000000).trace
      = [str "Server at " ++ str ":8080" ++ str " shutting down...",
         str "Graceful shutdown timed out, forcing exit.\n",
         str "Could not gracefully shut down the server: "
           ++ GoError.DeadlineExceeded.Error ++ str "\n"] :=
  (GracefulShutdown_timed_out_line_iff ⟨true, some .DeadlineExceeded, some .DeadlineExceeded⟩
    ⟨str ":8080"⟩ 1000000 .DeadlineExceeded rfl rfl).2.1 rfl

/-- C3, counterexample: when no interrupt is ever delivered, `GracefulShutdown`
stays in the receive `<-c` and `Shutdown` is not invoked at all. -/
theorem GracefulShutdown_no_signal_no_shutdown :
    (GracefulShutdown ⟨false, none, none⟩ ⟨str ":8080"⟩ 10000000000).trace.count .shutdown = 0
      ∧ (GracefulShutdown ⟨false, none, none⟩ ⟨str ":8080"⟩ 10000000000).returned = false := by
  decide

/-- C3, amended: in every execution of `GracefulShutdown` the channel of
capacity 1 is made and the interrupt subscription installed first, before the
blocking receive and before any step that can block; `Shutdown` is invoked at
most once: exactly once in every execution in which a signal is received from
the channel, and not at all in the others; it is invoked only after the signal
has been received and after the line `Server at {addr} shutting down...` has been
logged. -/
theorem GracefulShutdown_order (env : ShutdownEnv) (server : Server) (timeout : Int) :
    let t := (GracefulShutdown env server timeout).trace
    (∃ rest, t = .makeChan 1 :: .notifyInterrupt :: .recvWait :: rest)
      ∧ (∀ e ∈ t.takeWhile (fun e => e ≠ .notifyInterrupt), e.canBlock = false)
      ∧ t.count .shutdown = (if env.signal = true then 1 else 0)
      ∧ occursBefore .recvDone .shutdown t
      ∧ occursBefore (.log (str "Server at " ++ server.Addr ++ str " shutting down..."))
          .shutdown t := by
  intro t
  by_cases hsig : env.signal = true
  · by_cases herr : env.shutdownErr = none
    · simp [t, GracefulShutdown, hsig, herr, occursBefore, List.takeWhile, Event.canBlock]
    · by_cases hctx : env.ctxErr = some .DeadlineExceeded <;>
        simp [t, GracefulShutdown, hsig, herr, hctx, occursBefore, List.takeWhile,
          Event.canBlock]
  · simp [t, GracefulShutdown, hsig, occursBefore, List.takeWhile, Event.canBlock]

/-! ### `StartServer` -/

/-- C4: whatever error value `ListenAndServe` returns on the goroutine started
by `StartServer`, the process exits fatally (status 1) if and only if the error
is not `http.ErrServerClosed`; when it does, the line
`Could not listen on {addr}: {err}` with the underlying error is logged first,
and on `http.ErrServerClosed` the goroutine logs nothing and does not exit. -/
theorem serverGoroutine_fatal_iff (server : Server) (bound : Bool) (err : GoError) :
    let t := serverGoroutine server (.returned bound (some err))
    (.exit 1 ∈ t ↔ err ≠ .ErrServerClosed)
      ∧ (err ≠ .ErrServerClosed →
          t = (if bound then [.bind] else [])
            ++ [.log (str "Could not listen on " ++ server.Addr ++ str ": " ++ err.Error
                  ++ str "\n"), .exit 1])
      ∧ (err = .ErrServerClosed → logsOf t = [] ∧ ∀ code, .exit code ∉ t) := by
  intro t
  by_cases he : err = .ErrServerClosed
  · cases bound <;> simp [t, serverGoroutine, he, logsOf]
  · cases bound <;> simp [t, serverGoroutine, he, logsOf, fmtError]

/-! ### `main`: the two goroutines -/

theorem takeWhile_ne_cons (b e : Event) (l : List Event) (h : e ≠ b) :
    (e :: l).takeWhile (fun x => x ≠ b) = e :: l.takeWhile (fun x => x ≠ b) := by
  simp [List.takeWhile, h]

theorem takeWhile_ne_self (b : Event) (l : List Event) :
    (b :: l).takeWhile (fun x => x ≠ b) = [] := by
  simp [List.takeWhile]

theorem mem_takeWhile_of_mem_interleavings (a b : Event) (xs : List Event) (hab : a ≠ b) :
    ∀ (g t : List Event), t ∈ interleavings (a :: xs) g → b ∉ g →
      a ∈ t.takeWhile (fun e => e ≠ b) := by
  intro g
  induction g with
  | nil =>
    intro t ht _
    simp only [interleavings, interleaveAux, List.mem_singleton] at ht
    subst ht
    rw [takeWhile_ne_cons _ _ _ hab]
    exact List.mem_cons_self _ _
  | cons y ys ih =>
    intro t ht hb
    simp only [interleavings, interleaveAux, List.mem_append, List.mem_map] at ht
    rcases ht with ⟨u, _, rfl⟩ | ⟨u, hu, rfl⟩
    · rw [takeWhile_ne_cons _ _ _ hab]
      exact List.mem_cons_self _ _
    · have hyb : y ≠ b := fun h => hb (by simp [h])
      have hbys : b ∉ ys := fun h => hb (List.mem_cons_of_mem _ h)
      rw [takeWhile_ne_cons _ _ _ hyb]
      exact List.mem_cons_of_mem _ (ih u hu hbys)

theorem untilExit_cons_of_ne_exit (e : Event) (rest : List Event)
    (h : ∀ code, e ≠ .exit code) : untilExit (e :: rest) = e :: untilExit rest := by
  cases e with
  | exit code => exact absurd rfl (h code)
  | spawn | bind | log _ | makeChan _ | notifyInterrupt | recvWait | recvDone
    | withTimeout _ | shutdown | ctxErr | cancel => rfl

theorem occursBefore_untilExit (a b : Event) :
    ∀ t : List Event, a ∈ t.takeWhile (fun e => e ≠ b) → occursBefore a b (untilExit t) := by
  intro t
  induction t with
  | nil => intro h; simp [List.takeWhile] at h
  | cons e rest ih =>
    intro h hb
    by_cases heb : e = b
    · rw [heb, takeWhile_ne_self] at h
      exact absurd h (List.not_mem_nil _)
    · rw [takeWhile_ne_cons _ _ _ heb, List.mem_cons] at h
      by_cases hex : ∃ code, e = .exit code
      · obtain ⟨code, rfl⟩ := hex
        simp only [untilExit, List.mem_singleton] at hb
        exact absurd hb.symm heb
      · have hne : ∀ code, e ≠ .exit code := fun code hc => hex ⟨code, hc⟩
        rw [untilExit_cons_of_ne_exit e rest hne] at hb ⊢
        rw [takeWhile_ne_cons _ _ _ heb]
        rcases List.mem_cons.mp hb with hb | hb
        · exact absurd hb.symm heb
        · rcases h with h | h
          · rw [h]
            exact List.mem_cons_self _ _
          · exact List.mem_cons_of_mem _ (ih h hb)

theorem recvWait_not_mem_serverGoroutine (server : Server) (o : ListenAndServeOutcome) :
    Event.recvWait ∉ serverGoroutine server o := by
  cases o with
  | serving => simp [serverGoroutine]
  | returned bound err =>
    cases bound <;> by_cases h : err ≠ none ∧ err ≠ some .ErrServerClosed <;>
      simp [serverGoroutine, h]

theorem mainThread_eq (env : ShutdownEnv) :
    ∃ rest, mainThread env = .spawn
      :: .log (str "Server is ready to handle requests at http://localhost" ++ str ":8080")
      :: rest := by
  exact ⟨(GracefulShutdown env ⟨str ":8080"⟩ (wrap64 (10 * Second))).trace
    ++ (if (GracefulShutdown env ⟨str ":8080"⟩ (wrap64 (10 * Second))).returned then [Event.exit 0]
        else []), rfl⟩

/-- C5, counterexample: an execution of `main` in which the main goroutine runs
`StartServer` to its end, logs that the server is ready, and begins waiting on
the interrupt channel, and only then the server goroutine binds the socket. -/
theorem bind_after_wait_execution :
    [Event.spawn, .log (str "Server is ready to handle requests at http://localhost:8080"),
        .makeChan 1, .notifyInterrupt, .recvWait, .bind]
        ∈ executions ⟨false, none, none⟩ .serving
      ∧ ¬ occursBefore .bind .recvWait
          [Event.spawn, .log (str "Server is ready to handle requests at http://localhost:8080"),
            .makeChan 1, .notifyInterrupt, .recvWait, .bind]
      ∧ ¬ occursBefore .bind
          (.log (str "Server is ready to handle requests at http://localhost:8080"))
          [Event.spawn, .log (str "Server is ready to handle requests at http://localhost:8080"),
            .makeChan 1, .notifyInterrupt, .recvWait, .bind] := by
  decide

/-- C5, amended: in every execution of `main`, before the controller begins
waiting on the interrupt channel `StartServer` has started the goroutine that
binds the listening socket and has logged that the server is ready; the bind
itself is a step of that goroutine and comes after the `go` statement, at a
point that is not fixed relative to the return of `StartServer`. -/
theorem spawn_before_wait (env : ShutdownEnv) (o : ListenAndServeOutcome) (t : List Event)
    (ht : t ∈ executions env o) :
    occursBefore .spawn .recvWait t
      ∧ occursBefore
          (.log (str "Server is ready to handle requests at http://localhost" ++ str ":8080"))
          .recvWait t
      ∧ occursBefore .spawn .bind t := by
  obtain ⟨rest, hmain⟩ := mainThread_eq env
  unfold executions at ht
  rw [hmain] at ht
  simp only [afterSpawn, if_true, List.map_map, List.mem_map, Function.comp] at ht
  obtain ⟨u, hu, rfl⟩ := ht
  refine ⟨?_, ?_, ?_⟩
  · apply occursBefore_untilExit
    rw [takeWhile_ne_cons _ _ _ (by simp)]
    exact List.mem_cons_self _ _
  · apply occursBefore_untilExit
    rw [takeWhile_ne_cons _ _ _ (by simp)]
    exact List.mem_cons_of_mem _ (mem_takeWhile_of_mem_interleavings _ .recvWait rest
      (by simp) _ u hu (recvWait_not_mem_serverGoroutine _ o))
  · apply occursBefore_untilExit
    rw [takeWhile_ne_cons _ _ _ (by simp)]
    exact List.mem_cons_self _ _

/-- Witness of the amended C5: the execution in which the bind comes last. -/
theorem spawn_before_wait_witness :
    occursBefore .spawn .recvWait
        [Event.spawn, .log (str "Server is ready to handle requests at http://localhost:8080"),
          .makeChan 1, .notifyInterrupt, .recvWait, .bind]
      ∧ occursBefore .spawn .bind
        [Event.spawn, .log (str "Server is ready to handle requests at http://localhost:8080"),
          .makeChan 1, .notifyInterrupt, .recvWait, .bind] :=
  have h := spawn_before_wait ⟨false, none, none⟩ .serving
    [Event.spawn, .log (str "Server is ready to handle requests at http://localhost:8080"),
      .makeChan 1, .notifyInterrupt, .recvWait, .bind] (by decide)
  ⟨h.1, h.2.2⟩

/-! ### The scanner with and without the limit on nesting -/

theorem pushParseState_limit (d : Nat) (s : Scanner) (ps : ParseState) (next : ScanStep) :
    (s.pushParseState (some d) ps next).err = true
      ∨ s.pushParseState (some d) ps next = s.pushParseState none ps next := by
  unfold Scanner.pushParseState
  by_cases h : (({ s with stack := ⟨ps, [], [], []⟩ :: s.stack } : Scanner)).stack.length ≤ d
  · right
    simp only [h, if_true]
  · left
    simp only [h, if_false, Scanner.error]

theorem stateBeginValue_limit (d : Nat) (s : Scanner) (c : UInt8) :
    (stateBeginValue (some d) s c).err = true
      ∨ stateBeginValue (some d) s c = stateBeginValue none s c := by
  unfold stateBeginValue
  by_cases h1 : isSpace c = true
  · rw [if_pos h1, if_pos h1]
    exact Or.inr rfl
  · rw [if_neg h1, if_neg h1]
    by_cases h2 : c = lbrace
    · rw [if_pos h2, if_pos h2]
      exact pushParseState_limit d s _ _
    · rw [if_neg h2, if_neg h2]
      by_cases h3 : c = lbracket
      · rw [if_pos h3, if_pos h3]
        exact pushParseState_limit d s _ _
      · rw [if_neg h3, if_neg h3]
        exact Or.inr rfl

theorem stateBeginValueOrEmpty_limit (d : Nat) (s : Scanner) (c : UInt8) :
    (stateBeginValueOrEmpty (some d) s c).err = true
      ∨ stateBeginValueOrEmpty (some d) s c = stateBeginValueOrEmpty none s c := by
  unfold stateBeginValueOrEmpty
  by_cases h1 : isSpace c = true
  · rw [if_pos h1, if_pos h1]
    exact Or.inr rfl
  · rw [if_neg h1, if_neg h1]
    by_cases h2 : c = rbracket
    · rw [if_pos h2, if_pos h2]
      exact Or.inr rfl
    · rw [if_neg h2, if_neg h2]
      exact stateBeginValue_limit d s c

theorem next_limit (d : Nat) (s : Scanner) (c : UInt8) :
    (s.next (some d) c).err = true ∨ s.next (some d) c = s.next none c := by
  unfold Scanner.next
  by_cases hs : s.err = true
  · right
    simp only [hs, if_true]
  · simp only [hs]
    cases s.step
    all_goals first
      | exact stateBeginValue_limit d s c
      | exact stateBeginValueOrEmpty_limit d s c
      | exact Or.inr rfl

theorem next_of_err (md : Option Nat) (s : Scanner) (c : UInt8) (h : s.err = true) :
    s.next md c = s := by
  simp [Scanner.next, h]

theorem foldl_next_of_err (md : Option Nat) (data : GoString) :
    ∀ s : Scanner, s.err = true → data.foldl (Scanner.next md) s = s := by
  induction data with
  | nil => intro s _; rfl
  | cons c cs ih =>
    intro s h
    rw [List.foldl_cons, next_of_err md s c h]
    exact ih s h

theorem foldl_next_limit (d : Nat) (data : GoString) :
    ∀ s : Scanner, (data.foldl (Scanner.next (some d)) s).err = true
      ∨ data.foldl (Scanner.next (some d)) s = data.foldl (Scanner.next none) s := by
  induction data with
  | nil => intro s; exact Or.inr rfl
  | cons c cs ih =>
    intro s
    rw [List.foldl_cons, List.foldl_cons]
    rcases next_limit d s c with h | h
    · left
      rw [foldl_next_of_err _ cs _ h]
      exact h
    · rw [h]
      exact ih _

theorem eof_limit (d : Nat) (s : Scanner) :
    (s.eof (some d)).err = true ∨ s.eof (some d) = s.eof none := by
  unfold Scanner.eof
  by_cases hs : s.err = true
  · left
    simp only [hs, if_true]
  · by_cases ht : s.endTop = true
    · right
      simp only [hs, ht, if_true]
    · simp only [hs, ht]
      rcases next_limit d s (ch ' ') with h | h
      · left
        by_cases h2 : (s.next (some d) (ch ' ')).endTop = true
        · simp only [h2, if_true]
          exact h
        · simp only [h2]
          rfl
      · right
        rw [h]

theorem scanAll_limit (d : Nat) (data : GoString) :
    (scanAll (some d) data).err = true ∨ scanAll (some d) data = scanAll none data := by
  unfold scanAll
  rcases foldl_next_limit d data Scanner.reset with h | h
  · left
    simp only [Scanner.eof, h, if_true]
  · rw [h]
    exact eof_limit d _

/-- What `checkValid` accepts is valid JSON: the limit on nesting only makes it
reject more. -/
theorem validJSON_of_checkValid (d : Nat) (data : GoString)
    (h : checkValid (some d) data = true) : validJSON data = true := by
  unfold validJSON
  unfold checkValid at h ⊢
  rcases scanAll_limit d data with he | he
  · simp [he] at h
  · rw [← he]
    exact h

theorem parseJSON_of_not_valid (d : Nat) (data : GoString) (h : validJSON data = false) :
    parseJSON (some d) data = none := by
  unfold parseJSON
  by_cases hc : checkValid (some d) data = true
  · rw [validJSON_of_checkValid d data hc] at h
    exact absurd h (by decide)
  · simp [hc]

/-! ### The scanner always has the value it accepted -/

theorem coherent_error (s : Scanner) : s.error.coherent :=
  Or.inl rfl

theorem ready_of_coherent {s : Scanner} (h : s.coherent) :
    s.err = true ∨ s.top.isSome = true ∨ s.endTop = false := by
  rcases h with h | h | h
  · exact Or.inl h
  · exact Or.inr (Or.inl h)
  · exact Or.inr (Or.inr h.1)

theorem coherent_ite {p : Prop} [Decidable p] {a b : Scanner} (ha : p → a.coherent)
    (hb : ¬ p → b.coherent) : (if p then a else b).coherent := by
  by_cases h : p
  · rw [if_pos h]
    exact ha h
  · rw [if_neg h]
    exact hb h

theorem coherent_setStep (s : Scanner) (next : ScanStep) (l : GoString)
    (h1 : next ≠ .endValue) (h2 : next ≠ .beginValueOrEmpty)
    (h : s.err = true ∨ s.top.isSome = true ∨ s.endTop = false) :
    ({ s with step := next, lit := l } : Scanner).coherent := by
  rcases h with h | h | h
  · exact Or.inl h
  · exact Or.inr (Or.inl h)
  · exact Or.inr (Or.inr ⟨h, fun e => absurd e h1, fun e => absurd e h2⟩)

theorem coherent_literalByte (s : Scanner) (next : ScanStep) (c : UInt8)
    (h1 : next ≠ .endValue) (h2 : next ≠ .beginValueOrEmpty)
    (h : s.err = true ∨ s.top.isSome = true ∨ s.endTop = false) :
    (s.literalByte next c).coherent :=
  coherent_setStep s next (s.lit ++ [c]) h1 h2 h

theorem coherent_pushParseState (md : Option Nat) (s : Scanner) (ps : ParseState)
    (next : ScanStep) (h : s.err = true ∨ s.top.isSome = true ∨ s.endTop = false) :
    (s.pushParseState md ps next).coherent := by
  unfold Scanner.pushParseState
  cases md with
  | none =>
    rcases h with h | h | h
    · exact Or.inl h
    · exact Or.inr (Or.inl h)
    · exact Or.inr (Or.inr ⟨h, fun _ => List.cons_ne_nil _ _, fun _ => List.cons_ne_nil _ _⟩)
  | some d =>
    refine coherent_ite (fun _ => ?_) (fun _ => coherent_error _)
    rcases h with h | h | h
    · exact Or.inl h
    · exact Or.inr (Or.inl h)
    · exact Or.inr (Or.inr ⟨h, fun _ => List.cons_ne_nil _ _, fun _ => List.cons_ne_nil _ _⟩)

/-- What `emit` changes: at the top level the value becomes present, inside an
open array or object the stack keeps its length. -/
theorem emit_facts (s : Scanner) (v : JsonValue) :
    (s.emit v).err = s.err ∧ (s.emit v).endTop = s.endTop ∧ (s.emit v).step = s.step
      ∧ (s.top.isSome = true → (s.emit v).top.isSome = true)
      ∧ (s.stack = [] → (s.emit v).top.isSome = true)
      ∧ (s.stack ≠ [] → (s.emit v).stack ≠ []) := by
  unfold Scanner.emit
  rcases hs : s.stack with _ | ⟨⟨ps, elems, members, key⟩, rest⟩
  · simp
  · cases ps with
    | parseObjectKey => cases v <;> simp [hs]
    | parseObjectValue => simp
    | parseArrayValue => simp

theorem coherent_stateEndTop (s : Scanner) (c : UInt8) (h : s.coherent) :
    (stateEndTop s c).coherent := by
  unfold stateEndTop
  exact coherent_ite (fun _ => h) (fun _ => coherent_error _)

theorem coherent_popParseState (s : Scanner) (hne : s.stack ≠ [])
    (h : s.err = true ∨ s.top.isSome = true ∨ s.endTop = false) :
    s.popParseState.coherent := by
  unfold Scanner.popParseState
  rcases hs : s.stack with _ | ⟨o, rest⟩
  · exact absurd hs hne
  · simp only
    have hf := emit_facts { s with stack := rest }
      (match o.ps with
        | .parseArrayValue => JsonValue.array o.elems.reverse
        | _ => JsonValue.object o.members.reverse)
    obtain ⟨he, ht, _, hg, hnil, hcons⟩ := hf
    refine coherent_ite (fun hr => ?_) (fun hr => ?_)
    · right
      left
      exact hnil (List.length_eq_zero.mp hr)
    · rcases h with h | h | h
      · left
        show (Scanner.emit _ _).err = true
        rw [he]
        exact h
      · right
        left
        exact hg h
      · right
        right
        refine ⟨?_, fun _ => ?_, fun e => ?_⟩
        · show (Scanner.emit _ _).endTop = false
          rw [ht]
          exact h
        · exact hcons (fun e => hr (by have e2 : rest = [] := e; rw [e2]; rfl))
        · exact absurd e (by simp)

theorem coherent_stateEndValue (s : Scanner) (c : UInt8)
    (h : s.err = true ∨ s.top.isSome = true ∨ s.endTop = false)
    (hnil : s.stack = [] → s.err = true ∨ s.top.isSome = true) :
    (stateEndValue s c).coherent := by
  unfold stateEndValue
  rcases hs : s.stack with _ | ⟨o, rest⟩
  · simp only
    apply coherent_stateEndTop
    rcases hnil hs with h1 | h1
    · exact Or.inl h1
    · exact Or.inr (Or.inl h1)
  · simp only
    have hne : s.stack ≠ [] := by rw [hs]; exact List.cons_ne_nil _ _
    refine coherent_ite (fun _ => ?_) (fun _ => ?_)
    · rcases h with h | h | h
      · exact Or.inl h
      · exact Or.inr (Or.inl h)
      · exact Or.inr (Or.inr ⟨h, fun _ => List.cons_ne_nil _ _, fun e => absurd e (by simp)⟩)
    · cases o.ps with
      | parseObjectKey =>
        simp only
        refine coherent_ite (fun _ => ?_) (fun _ => coherent_error _)
        rcases h with h | h | h
        · exact Or.inl h
        · exact Or.inr (Or.inl h)
        · exact Or.inr (Or.inr ⟨h, fun e => absurd e (by simp), fun e => absurd e (by simp)⟩)
      | parseObjectValue =>
        simp only
        refine coherent_ite (fun _ => ?_) (fun _ => coherent_ite (fun _ => ?_)
          (fun _ => coherent_error _))
        · rcases h with h | h | h
          · exact Or.inl h
          · exact Or.inr (Or.inl h)
          · exact Or.inr (Or.inr ⟨h, fun e => absurd e (by simp), fun e => absurd e (by simp)⟩)
        · exact coherent_popParseState s hne h
      | parseArrayValue =>
        simp only
        refine coherent_ite (fun _ => ?_) (fun _ => coherent_ite (fun _ => ?_)
          (fun _ => coherent_error _))
        · rcases h with h | h | h
          · exact Or.inl h
          · exact Or.inr (Or.inl h)
          · exact Or.inr (Or.inr ⟨h, fun e => absurd e (by simp), fun e => absurd e (by simp)⟩)
        · exact coherent_popParseState s hne h

/-- A finished value is handed over and the scanner moves to `stateEndValue`. -/
theorem coherent_emit_endValue (s : Scanner) (v : JsonValue) (hstep : s.step = .endValue)
    (h : s.err = true ∨ s.top.isSome = true ∨ s.endTop = false) : (s.emit v).coherent := by
  obtain ⟨he, ht, _, hg, hnil, hcons⟩ := emit_facts s v
  rcases h with h | h | h
  · exact Or.inl (by rw [he]; exact h)
  · exact Or.inr (Or.inl (hg h))
  · by_cases hs : s.stack = []
    · exact Or.inr (Or.inl (hnil hs))
    · refine Or.inr (Or.inr ⟨by rw [ht]; exact h, fun _ => hcons hs, fun e => ?_⟩)
      rw [(emit_facts s v).2.2.1, hstep] at e
      exact absurd e (by decide)

theorem coherent_endNumber (s : Scanner) (c : UInt8)
    (h : s.err = true ∨ s.top.isSome = true ∨ s.endTop = false) :
    (endNumber s c).coherent := by
  unfold endNumber
  obtain ⟨he, ht, _, hg, hnil, hcons⟩ := emit_facts s (.number s.lit)
  apply coherent_stateEndValue
  · rcases h with h | h | h
    · exact Or.inl (by rw [he]; exact h)
    · exact Or.inr (Or.inl (hg h))
    · exact Or.inr (Or.inr (by rw [ht]; exact h))
  · intro hs
    by_cases hs0 : s.stack = []
    · exact Or.inr (hnil hs0)
    · exact absurd hs (hcons hs0)

theorem coherent_stateBeginValue (md : Option Nat) (s : Scanner) (c : UInt8)
    (h : s.coherent) : (stateBeginValue md s c).coherent := by
  have hr := ready_of_coherent h
  unfold stateBeginValue
  refine coherent_ite (fun _ => h) (fun _ => ?_)
  refine coherent_ite (fun _ => coherent_pushParseState md s _ _ hr) (fun _ => ?_)
  refine coherent_ite (fun _ => coherent_pushParseState md s _ _ hr) (fun _ => ?_)
  refine coherent_ite (fun _ => coherent_setStep s _ _ (by decide) (by decide) hr) (fun _ => ?_)
  refine coherent_ite (fun _ => coherent_setStep s _ _ (by decide) (by decide) hr) (fun _ => ?_)
  refine coherent_ite (fun _ => coherent_setStep s _ _ (by decide) (by decide) hr) (fun _ => ?_)
  refine coherent_ite (fun _ => coherent_setStep s _ _ (by decide) (by decide) hr) (fun _ => ?_)
  refine coherent_ite (fun _ => coherent_setStep s _ _ (by decide) (by decide) hr) (fun _ => ?_)
  refine coherent_ite (fun _ => coherent_setStep s _ _ (by decide) (by decide) hr) (fun _ => ?_)
  exact coherent_ite (fun _ => coherent_setStep s _ _ (by decide) (by decide) hr)
    (fun _ => coherent_error _)

theorem coherent_stateBeginValueOrEmpty (md : Option Nat) (s : Scanner) (c : UInt8)
    (h : s.coherent) (hstep : s.step = .beginValueOrEmpty) :
    (stateBeginValueOrEmpty md s c).coherent := by
  unfold stateBeginValueOrEmpty
  refine coherent_ite (fun _ => h) (fun _ => ?_)
  refine coherent_ite (fun _ => ?_) (fun _ => coherent_stateBeginValue md s c h)
  apply coherent_stateEndValue s c (ready_of_coherent h)
  intro hs
  rcases h with h | h | h
  · exact Or.inl h
  · exact Or.inr h
  · exact absurd hs (h.2.2 hstep)

theorem coherent_stateBeginString (s : Scanner) (c : UInt8) (h : s.coherent) :
    (stateBeginString s c).coherent := by
  unfold stateBeginString
  refine coherent_ite (fun _ => h) (fun _ => ?_)
  exact coherent_ite
    (fun _ => coherent_setStep s _ _ (by decide) (by decide) (ready_of_coherent h))
    (fun _ => coherent_error _)

theorem coherent_stateBeginStringOrEmpty (s : Scanner) (c : UInt8) (h : s.coherent) :
    (stateBeginStringOrEmpty s c).coherent := by
  have hr := ready_of_coherent h
  unfold stateBeginStringOrEmpty
  refine coherent_ite (fun _ => h) (fun _ => ?_)
  refine coherent_ite (fun _ => ?_) (fun _ => coherent_stateBeginString s c h)
  rcases hs : s.stack with _ | ⟨o, rest⟩
  · exact coherent_error _
  · simp only
    apply coherent_stateEndValue
    · exact hr
    · intro e
      exact absurd e (List.cons_ne_nil _ _)

theorem coherent_stateInString (s : Scanner) (c : UInt8) (h : s.coherent) :
    (stateInString s c).coherent := by
  have hr := ready_of_coherent h
  unfold stateInString
  refine coherent_ite (fun _ => ?_) (fun _ => ?_)
  · exact coherent_emit_endValue _ _ rfl hr
  · refine coherent_ite (fun _ => coherent_literalByte s _ c (by decide) (by decide) hr)
      (fun _ => ?_)
    exact coherent_ite (fun _ => coherent_error _)
      (fun _ => coherent_literalByte s _ c (by decide) (by decide) hr)

theorem coherent_stateInStringEsc (s : Scanner) (c : UInt8) (h : s.coherent) :
    (stateInStringEsc s c).coherent := by
  have hr := ready_of_coherent h
  unfold stateInStringEsc
  refine coherent_ite (fun _ => coherent_literalByte s _ c (by decide) (by decide) hr)
    (fun _ => ?_)
  exact coherent_ite (fun _ => coherent_literalByte s _ c (by decide) (by decide) hr)
    (fun _ => coherent_error _)

theorem coherent_stateHex (next : ScanStep) (s : Scanner) (c : UInt8) (h : s.coherent)
    (h1 : next ≠ .endValue) (h2 : next ≠ .beginValueOrEmpty) :
    (stateHex next s c).coherent := by
  unfold stateHex
  exact coherent_ite (fun _ => coherent_literalByte s _ c h1 h2 (ready_of_coherent h))
    (fun _ => coherent_error _)

theorem coherent_stateNeg (s : Scanner) (c : UInt8) (h : s.coherent) :
    (stateNeg s c).coherent := by
  have hr := ready_of_coherent h
  unfold stateNeg
  refine coherent_ite (fun _ => coherent_literalByte s _ c (by decide) (by decide) hr)
    (fun _ => ?_)
  exact coherent_ite (fun _ => coherent_literalByte s _ c (by decide) (by decide) hr)
    (fun _ => coherent_error _)

theorem coherent_state0 (s : Scanner) (c : UInt8) (h : s.coherent) :
    (state0 s c).coherent := by
  have hr := ready_of_coherent h
  unfold state0
  refine coherent_ite (fun _ => coherent_literalByte s _ c (by decide) (by decide) hr)
    (fun _ => ?_)
  exact coherent_ite (fun _ => coherent_literalByte s _ c (by decide) (by decide) hr)
    (fun _ => coherent_endNumber s c hr)

theorem coherent_state1 (s : Scanner) (c : UInt8) (h : s.coherent) :
    (state1 s c).coherent := by
  unfold state1
  exact coherent_ite
    (fun _ => coherent_literalByte s _ c (by decide) (by decide) (ready_of_coherent h))
    (fun _ => coherent_state0 s c h)

theorem coherent_stateDot (s : Scanner) (c : UInt8) (h : s.coherent) :
    (stateDot s c).coherent := by
  unfold stateDot
  exact coherent_ite
    (fun _ => coherent_literalByte s _ c (by decide) (by decide) (ready_of_coherent h))
    (fun _ => coherent_error _)

theorem coherent_stateDot0 (s : Scanner) (c : UInt8) (h : s.coherent) :
    (stateDot0 s c).coherent := by
  have hr := ready_of_coherent h
  unfold stateDot0
  refine coherent_ite (fun _ => coherent_literalByte s _ c (by decide) (by decide) hr)
    (fun _ => ?_)
  exact coherent_ite (fun _ => coherent_literalByte s _ c (by decide) (by decide) hr)
    (fun _ => coherent_endNumber s c hr)

theorem coherent_stateESign (s : Scanner) (c : UInt8) (h : s.coherent) :
    (stateESign s c).coherent := by
  unfold stateESign
  exact coherent_ite
    (fun _ => coherent_literalByte s _ c (by decide) (by decide) (ready_of_coherent h))
    (fun _ => coherent_error _)

theorem coherent_stateE (s : Scanner) (c : UInt8) (h : s.coherent) :
    (stateE s c).coherent := by
  unfold stateE
  exact coherent_ite
    (fun _ => coherent_literalByte s _ c (by decide) (by decide) (ready_of_coherent h))
    (fun _ => coherent_stateESign s c h)

theorem coherent_stateE0 (s : Scanner) (c : UInt8) (h : s.coherent) :
    (stateE0 s c).coherent := by
  have hr := ready_of_coherent h
  unfold stateE0
  exact coherent_ite (fun _ => coherent_literalByte s _ c (by decide) (by decide) hr)
    (fun _ => coherent_endNumber s c hr)

theorem coherent_stateWord (want : UInt8) (next : ScanStep) (s : Scanner) (c : UInt8)
    (h : s.coherent) (h1 : next ≠ .endValue) (h2 : next ≠ .beginValueOrEmpty) :
    (stateWord want next s c).coherent := by
  unfold stateWord
  exact coherent_ite (fun _ => coherent_literalByte s _ c h1 h2 (ready_of_coherent h))
    (fun _ => coherent_error _)

theorem coherent_stateWordEnd (want : UInt8) (v : JsonValue) (s : Scanner) (c : UInt8)
    (h : s.coherent) : (stateWordEnd want v s c).coherent := by
  have hr := ready_of_coherent h
  unfold stateWordEnd
  exact coherent_ite (fun _ => coherent_emit_endValue _ _ rfl hr)
    (fun _ => coherent_error _)

theorem coherent_next (md : Option Nat) (s : Scanner) (c : UInt8) (h : s.coherent) :
    (s.next md c).coherent := by
  unfold Scanner.next
  refine coherent_ite (fun _ => h) (fun _ => ?_)
  cases hstep : s.step with
  | beginValueOrEmpty => exact coherent_stateBeginValueOrEmpty md s c h hstep
  | beginValue => exact coherent_stateBeginValue md s c h
  | beginStringOrEmpty => exact coherent_stateBeginStringOrEmpty s c h
  | beginString => exact coherent_stateBeginString s c h
  | endValue =>
    apply coherent_stateEndValue s c (ready_of_coherent h)
    intro hs
    rcases h with h | h | h
    · exact Or.inl h
    · exact Or.inr h
    · exact absurd hs (h.2.1 hstep)
  | endTop => exact coherent_stateEndTop s c h
  | inString => exact coherent_stateInString s c h
  | inStringEsc => exact coherent_stateInStringEsc s c h
  | inStringEscU => exact coherent_stateHex _ s c h (by decide) (by decide)
  | inStringEscU1 => exact coherent_stateHex _ s c h (by decide) (by decide)
  | inStringEscU12 => exact coherent_stateHex _ s c h (by decide) (by decide)
  | inStringEscU123 => exact coherent_stateHex _ s c h (by decide) (by decide)
  | neg => exact coherent_stateNeg s c h
  | s1 => exact coherent_state1 s c h
  | s0 => exact coherent_state0 s c h
  | dot => exact coherent_stateDot s c h
  | dot0 => exact coherent_stateDot0 s c h
  | e => exact coherent_stateE s c h
  | eSign => exact coherent_stateESign s c h
  | e0 => exact coherent_stateE0 s c h
  | t => exact coherent_stateWord _ _ s c h (by decide) (by decide)
  | tr => exact coherent_stateWord _ _ s c h (by decide) (by decide)
  | tru => exact coherent_stateWordEnd _ _ s c h
  | f => exact coherent_stateWord _ _ s c h (by decide) (by decide)
  | fa => exact coherent_stateWord _ _ s c h (by decide) (by decide)
  | fal => exact coherent_stateWord _ _ s c h (by decide) (by decide)
  | fals => exact coherent_stateWordEnd _ _ s c h
  | n => exact coherent_stateWord _ _ s c h (by decide) (by decide)
  | nu => exact coherent_stateWord _ _ s c h (by decide) (by decide)
  | nul => exact coherent_stateWordEnd _ _ s c h
  | error => exact coherent_error _

theorem coherent_foldl (md : Option Nat) (data : GoString) :
    ∀ s : Scanner, s.coherent → (data.foldl (Scanner.next md) s).coherent := by
  induction data with
  | nil => intro s h; exact h
  | cons c cs ih =>
    intro s h
    rw [List.foldl_cons]
    exact ih _ (coherent_next md s c h)

theorem coherent_scanAll (md : Option Nat) (data : GoString) : (scanAll md data).coherent := by
  unfold scanAll Scanner.eof
  have h0 : Scanner.reset.coherent :=
    Or.inr (Or.inr ⟨rfl, fun e => absurd e (by decide), fun e => absurd e (by decide)⟩)
  have h := coherent_foldl md data Scanner.reset h0
  refine coherent_ite (fun _ => h) (fun _ => coherent_ite (fun _ => h) (fun _ => ?_))
  exact coherent_ite (fun _ => coherent_next md _ _ h) (fun _ => coherent_error _)

/-- Whatever `checkValid` accepts has a value: `json.Unmarshal` returns a
`SyntaxError` only for an input that `checkValid` rejects. -/
theorem parseJSON_isSome_of_checkValid (md : Option Nat) (data : GoString)
    (h : checkValid md data = true) : ∃ v, parseJSON md data = some v := by
  unfold parseJSON
  rw [if_pos h]
  unfold checkValid at h
  simp only [Bool.and_eq_true, Bool.not_eq_true'] at h
  rcases coherent_scanAll md data with hc | hc | hc
  · rw [h.1] at hc
    exact absurd hc (by decide)
  · exact Option.isSome_iff_exists.mp hc
  · rw [h.2] at hc
    exact absurd hc.1 (by decide)

/-! ### Decoding -/

theorem sliceFrom_item (id : GoString) :
    sliceFrom (str "/item/" ++ id) (str "/item/").length = some id := by
  unfold sliceFrom
  rw [if_pos (by rw [List.length_append]; exact Nat.le_add_right _ _), List.drop_left]

theorem htmlResponse_sent (data : GoString) :
    let w := (ResponseWriter.fresh.SetHeader (str "Content-Type") (str "text/html")).Write data
    w.status = some 200 ∧ w.sentHeader (str "Content-Type") = some (str "text/html")
      ∧ w.body = data := by
  simp [ResponseWriter.sentHeader, ResponseWriter.Write, ResponseWriter.WriteHeader,
    ResponseWriter.SetHeader, ResponseWriter.fresh, StatusOK]

theorem itemPostRespond_item (id : GoString) (pv : List (GoString × GoString))
    (b : Except GoError GoString) (n : Int) :
    itemPostRespond .fresh ⟨str "/item/" ++ id, pv, b⟩ n
      = ⟨(ResponseWriter.fresh.SetHeader (str "Content-Type") (str "text/html")).Write
            (str "<html><body><h1>Post Item: " ++ id ++ str "</h1></body></html>"),
          (if n > 0 then
            [Effect.log (str "Sleeping for " ++ fmtInt n ++ str " seconds"),
              Effect.sleep (secondsToDuration n)]
           else []) ++ [Effect.closeBody], false⟩ := by
  unfold itemPostRespond
  simp only [sliceFrom_item]

theorem length_pos_of_ne_nil {body : GoString} (h : body ≠ []) : body.length > 0 :=
  List.length_pos.mpr h

theorem itemPostHandler_of_error (w : ResponseWriter) (path : GoString)
    (pv : List (GoString × GoString)) (body : GoString) (hne : body ≠ [])
    (herr : (Unmarshal body ⟨0⟩).2 ≠ none) :
    itemPostHandler w ⟨path, pv, .ok body⟩
      = ⟨httpError w (str "Invalid request body format") StatusBadRequest, [.closeBody],
          false⟩ := by
  unfold itemPostHandler
  simp only [if_pos (length_pos_of_ne_nil hne), if_pos herr]

theorem itemPostHandler_of_ok (w : ResponseWriter) (path : GoString)
    (pv : List (GoString × GoString)) (body : GoString) (hne : body ≠ [])
    (hok : (Unmarshal body ⟨0⟩).2 = none) :
    itemPostHandler w ⟨path, pv, .ok body⟩
      = itemPostRespond w ⟨path, pv, .ok body⟩ (Unmarshal body ⟨0⟩).1.Sleep := by
  unfold itemPostHandler
  simp only [if_pos (length_pos_of_ne_nil hne), hok, ne_eq, not_true_eq_false, if_false]

theorem itemPostHandler_of_empty (w : ResponseWriter) (path : GoString)
    (pv : List (GoString × GoString)) :
    itemPostHandler w ⟨path, pv, .ok []⟩ = itemPostRespond w ⟨path, pv, .ok []⟩ 0 := by
  unfold itemPostHandler
  simp

theorem badRequest_sent (msg : GoString) :
    let w := httpError .fresh msg StatusBadRequest
    w.status = some 400
      ∧ w.sentHeader (str "Content-Type") = some (str "text/plain; charset=utf-8")
      ∧ w.body = msg ++ str "\n" := by
  have hne : str "Content-Type" ≠ str "X-Content-Type-Options" := by decide
  simp [httpError, ResponseWriter.sentHeader, ResponseWriter.Write, ResponseWriter.WriteHeader,
    ResponseWriter.SetHeader, ResponseWriter.fresh, StatusBadRequest, hne, hne.symm]

/-- C7: a POST to `/item/{id}` whose body is empty or is `{}` is answered without
sleeping and without any log line, with status 200, `Content-Type: text/html` and
the body `<html><body><h1>Post Item: {id}</h1></body></html>`; the slice of the
path after `/item/` is in range and equals `id`.  This holds for every `id`, the
non-empty ones in particular. -/
theorem itemPostHandler_empty_body (id : GoString) (pv : List (GoString × GoString))
    (body : GoString) (hbody : body = [] ∨ body = str "\x7b\x7d") :
    let run := itemPostHandler .fresh ⟨str "/item/" ++ id, pv, .ok body⟩
    run.effects = [.closeBody]
      ∧ run.panicked = false
      ∧ run.w.status = some 200
      ∧ run.w.sentHeader (str "Content-Type") = some (str "text/html")
      ∧ run.w.body = str "<html><body><h1>Post Item: " ++ id ++ str "</h1></body></html>" := by
  intro run
  have hrun : run = itemPostRespond .fresh ⟨str "/item/" ++ id, pv, .ok body⟩ 0 := by
    rcases hbody with rfl | rfl
    · exact itemPostHandler_of_empty _ _ _
    · have hU : Unmarshal (str "\x7b\x7d") ⟨0⟩ = (⟨0⟩, none) := by decide
      have := itemPostHandler_of_ok .fresh (str "/item/" ++ id) pv (str "\x7b\x7d")
        (by decide) (by rw [hU])
      rw [hU] at this
      exact this
  rw [hrun, itemPostRespond_item]
  have hw := htmlResponse_sent (str "<html><body><h1>Post Item: " ++ id
    ++ str "</h1></body></html>")
  exact ⟨by simp, rfl, hw.1, hw.2.1, hw.2.2⟩

/-- Witness of C7: `POST /item/xyz` with the body `{}`. -/
theorem itemPostHandler_empty_body_witness :
    (itemPostHandler .fresh ⟨str "/item/" ++ str "xyz", [], .ok (str "\x7b\x7d")⟩).w.body
      = str "<html><body><h1>Post Item: " ++ str "xyz" ++ str "</h1></body></html>" :=
  (itemPostHandler_empty_body (str "xyz") [] (str "\x7b\x7d") (Or.inr rfl)).2.2.2.2

/-- C8, counterexample: the body `{"sl?eep": 5}`, in which `?` is the single byte
0xFF, is not valid JSON (it is not well-formed UTF-8), and the handler answers it
with status 200 and the `Post Item` page: the scanner of `encoding/json` does not
examine the bytes from 0x80 on inside a string literal, and the decoder replaces
the byte by U+FFFD. -/
theorem itemPostHandler_ill_formed_utf8_accepted :
    str "\x7b\"sl" ++ [0xFF] ++ str "eep\": 5\x7d" ≠ []
      ∧ validUTF8 (str "\x7b\"sl" ++ [0xFF] ++ str "eep\": 5\x7d") = false
      ∧ isJSONText (str "\x7b\"sl" ++ [0xFF] ++ str "eep\": 5\x7d") = false
      ∧ (itemPostHandler .fresh ⟨str "/item/123", [],
            .ok (str "\x7b\"sl" ++ [0xFF] ++ str "eep\": 5\x7d")⟩).w.status = some 200
      ∧ (itemPostHandler .fresh ⟨str "/item/123", [],
            .ok (str "\x7b\"sl" ++ [0xFF] ++ str "eep\": 5\x7d")⟩).w.body
          = str "<html><body><h1>Post Item: 123</h1></body></html>" := by
  decide

/-- C8, amended: for every non-empty request body that the syntax check of
`json.Unmarshal` rejects, and so for every non-empty body that is well-formed
UTF-8 and is not valid JSON, the handler answers with status 400 and the
plain-text error `Invalid request body format`; it does not sleep, logs nothing,
and does not write the `Post Item` page.  (The check does not look at the
encoding of the bytes inside a string literal.) -/
theorem itemPostHandler_syntax_error (path : GoString) (pv : List (GoString × GoString))
    (body : GoString) (hne : body ≠ [])
    (hbad : checkValid (some maxNestingDepth) body = false
      ∨ (validUTF8 body = true ∧ isJSONText body = false)) :
    let run := itemPostHandler .fresh ⟨path, pv, .ok body⟩
    run.w.status = some 400
      ∧ run.w.sentHeader (str "Content-Type") = some (str "text/plain; charset=utf-8")
      ∧ run.w.body = str "Invalid request body format" ++ str "\n"
      ∧ run.effects = [.closeBody]
      ∧ (∀ d, Effect.sleep d ∉ run.effects)
      ∧ (∀ msg, Effect.log msg ∉ run.effects)
      ∧ run.panicked = false := by
  intro run
  have hnone : parseJSON (some maxNestingDepth) body = none := by
    rcases hbad with hc | ⟨hu, hj⟩
    · unfold parseJSON
      simp [hc]
    · apply parseJSON_of_not_valid
      unfold isJSONText at hj
      rw [hu] at hj
      simpa using hj
  have herr : (Unmarshal body ⟨0⟩).2 ≠ none := by
    unfold Unmarshal
    rw [hnone]
    simp
  have hrun : run = ⟨httpError .fresh (str "Invalid request body format") StatusBadRequest,
      [.closeBody], false⟩ := itemPostHandler_of_error .fresh path pv body hne herr
  have hw := badRequest_sent (str "Invalid request body format")
  rw [hrun]
  exact ⟨hw.1, hw.2.1, hw.2.2, rfl, by simp, by simp, rfl⟩

/-- Witness of the amended C8: a body with an unquoted key, which is well-formed
UTF-8 and not valid JSON. -/
theorem itemPostHandler_syntax_error_witness :
    (itemPostHandler .fresh ⟨str "/item/123", [], .ok (str "\x7bsleep: 5\x7d")⟩).w.status
      = some 400 :=
  (itemPostHandler_syntax_error (str "/item/123") [] (str "\x7bsleep: 5\x7d") (by decide)
    (Or.inr (by decide))).1

/-- The sleep step for a decoded value `n > 0`: one log line and one call of
`time.Sleep` with the 64 bit product. -/
theorem itemPostHandler_sleep_step (id : GoString) (pv : List (GoString × GoString))
    (body : GoString) (n : Int) (hne : body ≠ []) (hU : Unmarshal body ⟨0⟩ = (⟨n⟩, none))
    (hn : 0 < n) :
    (itemPostHandler .fresh ⟨str "/item/" ++ id, pv, .ok body⟩).effects
      = [.log (str "Sleeping for " ++ fmtInt n ++ str " seconds"),
          .sleep (secondsToDuration n), .closeBody] := by
  rw [itemPostHandler_of_ok .fresh _ pv body hne (by rw [hU]), itemPostRespond_item, hU]
  simp [hn]

/-- No sleep step for a decoded value `n ≤ 0` (the field absent or zero gives
`n = 0`). -/
theorem itemPostHandler_no_sleep_step (id : GoString) (pv : List (GoString × GoString))
    (body : GoString) (n : Int) (hne : body ≠ []) (hU : Unmarshal body ⟨0⟩ = (⟨n⟩, none))
    (hn : n ≤ 0) :
    (itemPostHandler .fresh ⟨str "/item/" ++ id, pv, .ok body⟩).effects = [.closeBody] := by
  rw [itemPostHandler_of_ok .fresh _ pv body hne (by rw [hU]), itemPostRespond_item, hU]
  simp [not_lt.mpr hn]

/-- The product `time.Duration(n) * time.Second` is `n` seconds as long as
`n` is at most 9223372036. -/
theorem secondsToDuration_exact (n : Int) (h0 : 0 ≤ n) (h1 : n ≤ 9223372036) :
    secondsToDuration n = n * 1000000000 := by
  unfold secondsToDuration wrap64 Second
  have e1 : (n + 2 ^ 63) % 2 ^ 64 = n + 2 ^ 63 :=
    Int.emod_eq_of_lt (by omega) (by omega)
  rw [e1]
  have e2 : (n + 2 ^ 63 - 2 ^ 63) = n := by omega
  rw [e2]
  have e3 : (n * 1000000000 + 2 ^ 63) % 2 ^ 64 = n * 1000000000 + 2 ^ 63 :=
    Int.emod_eq_of_lt (by omega) (by omega)
  rw [e3]
  omega

/-- C10, the failing input: for the body `{"sleep": 9223372037}` the handler
logs `Sleeping for 9223372037 seconds` and then calls `time.Sleep` with the
wrapped product, a negative duration of -9223372036709551616 ns, for which
`time.Sleep` returns at once. -/
theorem itemPostHandler_sleep_overflow :
    (itemPostHandler .fresh ⟨str "/item/abc", [],
        .ok (str "\x7b\"sleep\": 9223372037\x7d")⟩).effects
      = [.log (str "Sleeping for 9223372037 seconds"), .sleep (-9223372036709551616),
          .closeBody] := by
  decide

end NewGoHttp
